import Mathlib

/-!
# Verification of the UCL configuration-language engine

Shallow embedding of the TypeScript UCL parse-and-evaluate engine
(`src/libs/typescript/src/parser.ts`, `src/libs/typescript/src/ucl-parser.ts`
and its `utils/` modules) together with proofs about the embedded
definitions.

JavaScript numbers are modelled as exact rationals (`JNum` below); this is
exact for every arithmetic operation exercised by the theorems in this file.
JavaScript builtins used by the source (`Number(..)`, `String(..)`, `trim`,
`toLowerCase`, `split`, `JSON.parse`) are modelled by explicit executable
functions, each marked in its doc comment.
-/

namespace UCL

/-! ## JavaScript number model -/

/-- Model of a JavaScript number as an exact rational in lowest terms with a
positive denominator.  (JS numbers are IEEE doubles; every computation done
by the theorems below is exact, so an exact rational is faithful there.) -/
structure JNum where
  n : Int
  d : Nat
deriving DecidableEq, Repr

/-- Build the canonical (lowest terms, positive denominator) `JNum` for the
fraction `num / den`.  `den = 0` never occurs at call sites. -/
def JNum.normInt (num den : Int) : JNum :=
  if den = 0 then ⟨0, 1⟩
  else
    let num' : Int := if den < 0 then -num else num
    let den' : Nat := den.natAbs
    let g : Nat := Nat.gcd num'.natAbs den'
    ⟨num' / (g : Int), den' / g⟩

def JNum.ofInt (i : Int) : JNum := ⟨i, 1⟩

instance : OfNat JNum n := ⟨JNum.ofInt n⟩

def JNum.add (a b : JNum) : JNum :=
  JNum.normInt (a.n * (b.d : Int) + b.n * (a.d : Int)) ((a.d : Int) * (b.d : Int))

def JNum.sub (a b : JNum) : JNum :=
  JNum.normInt (a.n * (b.d : Int) - b.n * (a.d : Int)) ((a.d : Int) * (b.d : Int))

def JNum.mul (a b : JNum) : JNum :=
  JNum.normInt (a.n * b.n) ((a.d : Int) * (b.d : Int))

def JNum.div (a b : JNum) : JNum :=
  JNum.normInt (a.n * (b.d : Int)) ((a.d : Int) * b.n)

/-- `Math.floor` on the model: round toward negative infinity. -/
def JNum.floor (a : JNum) : Int := Int.fdiv a.n (a.d : Int)

/-- Truncation toward zero (the rounding JavaScript uses to define `%`). -/
def JNum.trunc (a : JNum) : Int :=
  if a.n < 0 then -((-a.n).fdiv (a.d : Int)) else a.n.fdiv (a.d : Int)

/-- JavaScript `%` (remainder with the sign of the dividend):
`a % b = a - b * trunc(a / b)`. -/
def JNum.mod (a b : JNum) : JNum :=
  a.sub (b.mul (JNum.ofInt (a.div b).trunc))

def JNum.isInt (a : JNum) : Bool := a.d = 1

/-! ## Character-level utilities (models of JS string builtins) -/

/-- Model of the JS whitespace class used by `trim` (ASCII part). -/
def isWS (c : Char) : Bool :=
  c = ' ' ∨ c = '\t' ∨ c = '\n' ∨ c = '\r' ∨ c = '\x0b' ∨ c = '\x0c'

def trimChars (l : List Char) : List Char :=
  ((l.dropWhile isWS).reverse.dropWhile isWS).reverse

/-- Model of JS `String.prototype.trim`. -/
def jsTrim (s : String) : String := ⟨trimChars s.data⟩

/-- Model of JS `String.prototype.toLowerCase` (ASCII part). -/
def jsLower (s : String) : String := ⟨s.data.map Char.toLower⟩

/-- Model of JS `String.prototype.split` with a single-character separator
(total, never returns an empty list). -/
def splitChars (c : Char) : List Char → List (List Char)
  | [] => [[]]
  | x :: xs =>
    match splitChars c xs with
    | [] => [[x]]
    | h :: t => if x = c then [] :: h :: t else (x :: h) :: t

def jsSplit (c : Char) (s : String) : List String :=
  (splitChars c s.data).map (fun l => ⟨l⟩)

/-- `path.split(".")` as used throughout the source. -/
def splitDot (s : String) : List String := jsSplit '.' s

def joinWith (sep : String) : List String → String
  | [] => ""
  | [x] => x
  | x :: y :: t => x ++ sep ++ joinWith sep (y :: t)

/-- Number of physical lines of a text (length of its `split("\n")`). -/
def countLines (s : String) : Nat := (jsSplit '\n' s).length

def containsChar (s : String) (c : Char) : Bool := s.data.contains c

/-- Whether `pat` occurs as a contiguous substring of `l`. -/
def listHasSubstr (l pat : List Char) : Bool :=
  match l with
  | [] => pat.isEmpty
  | _ :: tl => pat.isPrefixOf l || listHasSubstr tl pat

def hasSubstr (s pat : String) : Bool := listHasSubstr s.data pat.data

def headCharIs (s : String) (c : Char) : Bool :=
  match s.data with
  | [] => false
  | x :: _ => x = c

def lastCharIs (s : String) (c : Char) : Bool :=
  match s.data.getLast? with
  | none => false
  | some x => x = c

/-- `s.substring(1, s.length - 1)` as used on bracketed/quoted text. -/
def innerText (s : String) : String := ⟨s.data.drop 1 |>.dropLast⟩

def digitVal (c : Char) : Nat := c.toNat - '0'.toNat

def digitsToNat (l : List Char) : Nat :=
  l.foldl (fun acc c => acc * 10 + digitVal c) 0

def hexDigitVal (c : Char) : Option Nat :=
  if c.isDigit then some (c.toNat - '0'.toNat)
  else if 'a' ≤ c ∧ c ≤ 'f' then some (c.toNat - 'a'.toNat + 10)
  else if 'A' ≤ c ∧ c ≤ 'F' then some (c.toNat - 'A'.toNat + 10)
  else none

/-- Digits of a `0x`/`0o`/`0b` integer literal in the given base; `none`
on an empty or invalid digit string. -/
def radixNat (base : Nat) (l : List Char) : Option Nat :=
  if l.isEmpty then none
  else
    l.foldl
      (fun acc c =>
        acc.bind fun a =>
          (hexDigitVal c).bind fun d => if d < base then some (a * base + d) else none)
      (some 0)

/-! ## Model of `Number(string)` (decimal part of the JS grammar)

`Number(s)` trims `s`; the empty string is `0`; otherwise an optional sign
followed by a decimal literal (`digits`, `digits.digits?`, `.digits`,
optional `e`/`E` exponent).  `NaN`, `Infinity` and the hex/octal/binary
forms all make every call site in the source take its failure path, so they
are modelled by `none`. -/

def parseDecCore : List Char → Option JNum := fun l =>
  let intPart := l.takeWhile Char.isDigit
  let rest := l.drop intPart.length
  let (fracPart, rest2) :=
    match rest with
    | '.' :: r => (r.takeWhile Char.isDigit, r.drop (r.takeWhile Char.isDigit).length)
    | _ => ([], rest)
  if intPart.isEmpty ∧ fracPart.isEmpty then none
  else
    let mantissa : Int :=
      (digitsToNat intPart * 10 ^ fracPart.length + digitsToNat fracPart : Nat)
    let den : Nat := 10 ^ fracPart.length
    match rest2 with
    | [] => some (JNum.normInt mantissa den)
    | e :: r =>
      if e = 'e' ∨ e = 'E' then
        let (esign, edigits) :=
          match r with
          | '-' :: rr => (true, rr)
          | '+' :: rr => (false, rr)
          | rr => (false, rr)
        if edigits.isEmpty ∨ ¬ edigits.all Char.isDigit then none
        else
          let ex := digitsToNat edigits
          if esign then some (JNum.normInt mantissa (den * 10 ^ ex))
          else some (JNum.normInt (mantissa * 10 ^ ex) den)
      else none

/-- Model of the JS builtin `Number(string)` combined with the
`!isNaN(..) && isFinite(..)` guard every call site applies: trimmed;
empty → 0; a signed decimal literal with optional fraction and exponent;
or an unsigned `0x`/`0o`/`0b` integer literal (a sign before those forms
is `NaN` in JS, hence `none`).  `NaN`, `Infinity` and unparseable text
are `none`, since the guard routes them to the failure path. -/
def jsStrToNumber (s : String) : Option JNum :=
  match (jsTrim s).data with
  | [] => some (JNum.ofInt 0)
  | '-' :: r => (parseDecCore r).map fun q => JNum.normInt (-q.n) (q.d : Int)
  | '+' :: r => parseDecCore r
  | '0' :: p :: r =>
    if p = 'x' ∨ p = 'X' then (radixNat 16 r).map fun n => JNum.ofInt n
    else if p = 'o' ∨ p = 'O' then (radixNat 8 r).map fun n => JNum.ofInt n
    else if p = 'b' ∨ p = 'B' then (radixNat 2 r).map fun n => JNum.ofInt n
    else parseDecCore ('0' :: p :: r)
  | l => parseDecCore l

/-! ## Model of `String(number)` -/

def digitChar (n : Nat) : Char := Char.ofNat ('0'.toNat + n)

def fracDigits : Nat → Nat → Nat → Option (List Char)
  | _, 0, _ => some []
  | 0, _ + 1, _ => none
  | fuel + 1, rest, den =>
    let r10 := rest * 10
    (fracDigits fuel (r10 % den) den).map fun ds => digitChar (r10 / den) :: ds

/-- Model of the JS builtin `String(number)` for finite values: integral
values render without a trailing `.0`; terminating decimals render exactly.
(Non-terminating decimals cannot arise from the computations in this file;
the final branch is an unreached placeholder.) -/
def renderNum (a : JNum) : String :=
  let sign := if a.n < 0 then "-" else ""
  let na := a.n.natAbs
  let ip := na / a.d
  let rest := na % a.d
  if rest = 0 then sign ++ toString ip
  else
    match fracDigits 64 rest a.d with
    | some ds => sign ++ toString ip ++ "." ++ (⟨ds⟩ : String)
    | none => sign ++ toString na ++ "/" ++ toString a.d

/-! ## The UCL data model -/

mutual
/-- The `UCLValue` tagged union from `parser.ts`:
`string | number | boolean | null | UCLArray | UCLObject`.
Objects are insertion-ordered association lists (mirroring JS object
property order for string keys). -/
inductive Value where
  | vnull : Value
  | vbool : Bool → Value
  | vnum : JNum → Value
  | vstr : String → Value
  | varr : ValueList → Value
  | vobj : Fields → Value
deriving DecidableEq, Repr

inductive ValueList where
  | lnil : ValueList
  | lcons : Value → ValueList → ValueList
deriving DecidableEq, Repr

inductive Fields where
  | fnil : Fields
  | fcons : String → Value → Fields → Fields
deriving DecidableEq, Repr
end

open Value

/-- The single UCL error family (`UCLError` and its subclasses), plus a
fuel marker for the recursion bound of the embedding. -/
inductive Err where
  | synError : String → Err
  | refError : String → Err
  | typeError : String → Err
  | genError : String → Err
  | fuelError : Err
deriving DecidableEq, Repr

instance {ε α : Type} [DecidableEq ε] [DecidableEq α] : DecidableEq (Except ε α) :=
  fun a b =>
    match a, b with
    | .ok x, .ok y => decidable_of_iff (x = y) (by simp)
    | .error x, .error y => decidable_of_iff (x = y) (by simp)
    | .ok _, .error _ => isFalse (fun h => Except.noConfusion h)
    | .error _, .ok _ => isFalse (fun h => Except.noConfusion h)

/-- JS property read `obj[key]` (own properties only, mirroring the
`hasOwnProperty` guards in the source). -/
def Fields.lookup : Fields → String → Option Value
  | .fnil, _ => none
  | .fcons k v rest, key => if k = key then some v else rest.lookup key

/-- JS property write `obj[key] = v`: an existing key keeps its position,
a new key is appended (JS insertion-order semantics for string keys). -/
def Fields.setKey : Fields → String → Value → Fields
  | .fnil, key, v => .fcons key v .fnil
  | .fcons k w rest, key, v =>
    if k = key then .fcons k v rest else .fcons k w (rest.setKey key v)

def ValueList.length : ValueList → Nat
  | .lnil => 0
  | .lcons _ rest => 1 + rest.length

def ValueList.get? : ValueList → Nat → Option Value
  | .lnil, _ => none
  | .lcons v _, 0 => some v
  | .lcons _ rest, i + 1 => rest.get? i

def ValueList.ofList : List Value → ValueList
  | [] => .lnil
  | v :: t => .lcons v (ValueList.ofList t)

def Fields.ofList : List (String × Value) → Fields
  | [] => .fnil
  | (k, v) :: t => .fcons k v (Fields.ofList t)

mutual
/-- Model of the JS builtin `String(value)` on `UCLValue`s:
numbers via `renderNum`, `null` → `"null"`, booleans → `"true"/"false"`,
arrays via `join(",")` (with `null` elements rendering as `""`),
plain objects → `"[object Object]"`. -/
def jsString : Value → String
  | .vnull => "null"
  | .vbool b => if b then "true" else "false"
  | .vnum q => renderNum q
  | .vstr s => s
  | .varr l => jsStringArr l
  | .vobj _ => "[object Object]"

def jsStringArr : ValueList → String
  | .lnil => ""
  | .lcons v .lnil => jsStringElem v
  | .lcons v rest => jsStringElem v ++ "," ++ jsStringArr rest

/-- Array elements render like `String(..)` except `null` → `""`. -/
def jsStringElem : Value → String
  | .vnull => ""
  | .vbool b => if b then "true" else "false"
  | .vnum q => renderNum q
  | .vstr s => s
  | .varr l => jsStringArr l
  | .vobj _ => "[object Object]"
end

/-! ## Model of `JSON.parse`

Used by `_isSimpleLiteral` (validity test on bracketed text) and by
`_parseSimpleValue` (embedded `{...}` object literals).  A standard
recursive-descent JSON parser over the character list, with fuel. -/

/-- The four hex digits of a `\uXXXX` escape. -/
def hex4 (h1 h2 h3 h4 : Char) : Option Nat :=
  (hexDigitVal h1).bind fun d1 =>
    (hexDigitVal h2).bind fun d2 =>
      (hexDigitVal h3).bind fun d3 =>
        (hexDigitVal h4).map fun d4 => ((d1 * 16 + d2) * 16 + d3) * 16 + d4

/-- A surrogate pair's two `\uXXXX` escapes combine into one scalar; a
lone surrogate (ill-formed as a Unicode string, but accepted by JS) is
modelled through `Char.ofNat`, which maps invalid scalars to `U+0000`. -/
def jsonStringBody (fuel : Nat) : List Char → Option (String × List Char) :=
  fun l =>
    match fuel, l with
    | _, '"' :: rest => some ("", rest)
    | fuel' + 1, '\\' :: 'u' :: h1 :: h2 :: h3 :: h4 :: rest =>
      (hex4 h1 h2 h3 h4).bind fun n =>
        if 0xD800 ≤ n ∧ n < 0xDC00 then
          match rest with
          | '\\' :: 'u' :: g1 :: g2 :: g3 :: g4 :: rest2 =>
            (hex4 g1 g2 g3 g4).bind fun m =>
              if 0xDC00 ≤ m ∧ m < 0xE000 then
                (jsonStringBody fuel' rest2).map fun (s, r) =>
                  (⟨[Char.ofNat (0x10000 + (n - 0xD800) * 0x400 + (m - 0xDC00))]⟩ ++ s, r)
              else
                (jsonStringBody fuel' rest).map fun (s, r) => (⟨[Char.ofNat n]⟩ ++ s, r)
          | _ => (jsonStringBody fuel' rest).map fun (s, r) => (⟨[Char.ofNat n]⟩ ++ s, r)
        else (jsonStringBody fuel' rest).map fun (s, r) => (⟨[Char.ofNat n]⟩ ++ s, r)
    | fuel' + 1, '\\' :: e :: rest =>
      (match e with
        | '"' => some "\""
        | '\\' => some "\\"
        | '/' => some "/"
        | 'b' => some "\x08"
        | 'f' => some "\x0c"
        | 'n' => some "\n"
        | 'r' => some "\r"
        | 't' => some "\t"
        | _ => none).bind fun c =>
        (jsonStringBody fuel' rest).map fun (s, r) => (c ++ s, r)
    | fuel' + 1, c :: rest =>
      if c.toNat < 0x20 then none
      else (jsonStringBody fuel' rest).map fun (s, r) => (⟨[c]⟩ ++ s, r)
    | _, _ => none

def jsonSkipWS : List Char → List Char
  | c :: rest => if c = ' ' ∨ c = '\t' ∨ c = '\n' ∨ c = '\r' then jsonSkipWS rest else c :: rest
  | [] => []

def jsonNumber : List Char → Option (JNum × List Char) := fun l =>
  let (neg, l1) := match l with
    | '-' :: r => (true, r)
    | r => (false, r)
  let intPart := l1.takeWhile Char.isDigit
  if intPart.isEmpty then none
  else
    let l2 := l1.drop intPart.length
    let (fracPart, l3) :=
      match l2 with
      | '.' :: r =>
        let f := r.takeWhile Char.isDigit
        (f, r.drop f.length)
      | _ => ([], l2)
    let (ex, l4) :=
      match l3 with
      | e :: r =>
        if e = 'e' ∨ e = 'E' then
          let (esign, r2) := match r with
            | '-' :: rr => ((-1 : Int), rr)
            | '+' :: rr => ((1 : Int), rr)
            | rr => ((1 : Int), rr)
          let eds := r2.takeWhile Char.isDigit
          if eds.isEmpty then ((0 : Int), l3)
          else (esign * (digitsToNat eds : Int), r2.drop eds.length)
        else ((0 : Int), l3)
      | [] => ((0 : Int), l3)
    let mant : Int := (digitsToNat intPart * 10 ^ fracPart.length + digitsToNat fracPart : Nat)
    let mant : Int := if neg then -mant else mant
    let den : Nat := 10 ^ fracPart.length
    let q := if 0 ≤ ex then JNum.normInt (mant * 10 ^ ex.natAbs) den
             else JNum.normInt mant (den * 10 ^ ex.natAbs)
    some (q, l4)

mutual
def jsonValue (fuel : Nat) (l : List Char) : Option (Value × List Char) :=
  match fuel with
  | 0 => none
  | fuel + 1 =>
    match jsonSkipWS l with
    | 't' :: 'r' :: 'u' :: 'e' :: rest => some (.vbool true, rest)
    | 'f' :: 'a' :: 'l' :: 's' :: 'e' :: rest => some (.vbool false, rest)
    | 'n' :: 'u' :: 'l' :: 'l' :: rest => some (.vnull, rest)
    | '"' :: rest => (jsonStringBody fuel rest).map fun (s, r) => (.vstr s, r)
    | '[' :: rest =>
      (match jsonSkipWS rest with
       | ']' :: r => some (.varr .lnil, r)
       | _ => (jsonElems fuel rest).map fun (es, r) => (.varr es, r))
    | '{' :: rest =>
      (match jsonSkipWS rest with
       | '}' :: r => some (.vobj .fnil, r)
       | _ => (jsonMembers fuel rest).map fun (fs, r) => (.vobj fs, r))
    | rest => (jsonNumber rest).map fun (q, r) => (.vnum q, r)

def jsonElems (fuel : Nat) (l : List Char) : Option (ValueList × List Char) :=
  match fuel with
  | 0 => none
  | fuel + 1 =>
    (jsonValue fuel l).bind fun (v, r) =>
      match jsonSkipWS r with
      | ',' :: r2 => (jsonElems fuel r2).map fun (es, r3) => (.lcons v es, r3)
      | ']' :: r2 => some (.lcons v .lnil, r2)
      | _ => none

def jsonMembers (fuel : Nat) (l : List Char) : Option (Fields × List Char) :=
  match fuel with
  | 0 => none
  | fuel + 1 =>
    match jsonSkipWS l with
    | '"' :: rest =>
      (jsonStringBody fuel rest).bind fun (k, r) =>
        match jsonSkipWS r with
        | ':' :: r2 =>
          (jsonValue fuel r2).bind fun (v, r3) =>
            match jsonSkipWS r3 with
            | ',' :: r4 => (jsonMembers fuel r4).map fun (fs, r5) => (.fcons k v fs, r5)
            | '}' :: r4 => some (.fcons k v .fnil, r4)
            | _ => none
        | _ => none
    | _ => none
end

/-- Model of `JSON.parse(s)` returning a `UCLValue` (`none` = exception). -/
def jsonParse (s : String) : Option Value :=
  (jsonValue (s.data.length + 1) s.data).bind fun (v, rest) =>
    match jsonSkipWS rest with
    | [] => some v
    | _ => none

/-- The `try { JSON.parse(..); return true } catch { return false }` test. -/
def jsonValid (s : String) : Bool := (jsonParse s).isSome

/-! ## Lexical preprocessor (`removeComments`, `utils/string-parser.ts`) -/

/-- Skip to just past the next `*/`, if any. -/
def dropToClose : List Char → Option (List Char)
  | '*' :: '/' :: rest => some rest
  | _ :: rest => dropToClose rest
  | [] => none

/-- Model of `content.replace(/\/\*.*?\*\//gs, "")`: repeatedly delete the
leftmost `/*`-to-next-`*/` span (newlines included).  An opener with no
later closer matches nothing.  `fuel ≥ length + 1` suffices. -/
def stripBlockF : Nat → List Char → List Char
  | 0, l => l
  | _ + 1, [] => []
  | fuel + 1, c :: rest =>
    if c = '/' ∧ rest.head? = some '*' then
      match dropToClose rest.tail with
      | some rest' => stripBlockF fuel rest'
      | none => '/' :: '*' :: stripBlockF fuel rest.tail
    else c :: stripBlockF fuel rest

def stripBlockComments (s : String) : String :=
  ⟨stripBlockF (s.data.length + 1) s.data⟩

/-- The per-line `//` stripper of `removeComments`: quote-aware
(independent `"`/`'` kinds, a quote preceded by `\` does not close),
truncating at the first `//` outside a quote. -/
def stripLineGo (inStr : Bool) (qc : Option Char) (prev : Option Char) :
    List Char → List Char
  | [] => []
  | c :: rest =>
    if ¬ inStr ∧ (c = '"' ∨ c = '\'') then
      c :: stripLineGo true (some c) (some c) rest
    else if inStr ∧ some c = qc ∧ prev ≠ some '\\' then
      c :: stripLineGo false none (some c) rest
    else if ¬ inStr ∧ c = '/' ∧ rest.head? = some '/' then
      []
    else
      c :: stripLineGo inStr qc (some c) rest

def stripLineComment (line : String) : String :=
  ⟨stripLineGo false none none line.data⟩

/-- `removeComments` from `utils/string-parser.ts` (identical to
`UCLParser._removeComments` in `parser.ts`): block comments first via the
global regex, then the per-line quote-aware `//` stripper. -/
def removeComments (s : String) : String :=
  joinWith "\n" ((jsSplit '\n' (stripBlockComments s)).map stripLineComment)

/-! ## Expression-lexing helpers (`utils/expression-evaluator.ts`) -/

def isExprOp (c : Char) : Bool :=
  c = '+' ∨ c = '-' ∨ c = '*' ∨ c = '/' ∨ c = '%'

/-- `containsOperators`: any of `+ - * / %` outside quoted substrings. -/
def containsOpsGo (inStr : Bool) (qc : Option Char) (prev : Option Char) :
    List Char → Bool
  | [] => false
  | c :: rest =>
    if ¬ inStr ∧ (c = '"' ∨ c = '\'') then containsOpsGo true (some c) (some c) rest
    else if inStr ∧ some c = qc ∧ prev ≠ some '\\' then
      containsOpsGo false none (some c) rest
    else if ¬ inStr ∧ isExprOp c then true
    else containsOpsGo inStr qc (some c) rest

def containsOperators (s : String) : Bool :=
  containsOpsGo false none none s.data

/-- `isOperator`: membership in `["+", "-", "*", "/", "%"]`. -/
def isOperatorTok (t : String) : Bool :=
  t = "+" ∨ t = "-" ∨ t = "*" ∨ t = "/" ∨ t = "%"

/-- `tokenizeExpression`: quoted spans are single tokens (kept with their
quotes, escape-aware), operators and parentheses are singleton tokens,
other runs are pushed trimmed. -/
def tokenizeGo (tokens : List String) (cur : List Char) (inStr : Bool)
    (qc : Option Char) (prev : Option Char) : List Char → List String
  | [] => if jsTrim ⟨cur⟩ ≠ "" then tokens ++ [jsTrim ⟨cur⟩] else tokens
  | c :: rest =>
    if ¬ inStr ∧ (c = '"' ∨ c = '\'') then
      let tokens := if jsTrim ⟨cur⟩ ≠ "" then tokens ++ [jsTrim ⟨cur⟩] else tokens
      tokenizeGo tokens [c] true (some c) (some c) rest
    else if inStr ∧ some c = qc then
      if prev = some '\\' then tokenizeGo tokens (cur ++ [c]) inStr qc (some c) rest
      else tokenizeGo (tokens ++ [⟨cur ++ [c]⟩]) [] false none (some c) rest
    else if inStr then tokenizeGo tokens (cur ++ [c]) inStr qc (some c) rest
    else if isExprOp c ∨ c = '(' ∨ c = ')' then
      let tokens := if jsTrim ⟨cur⟩ ≠ "" then tokens ++ [jsTrim ⟨cur⟩] else tokens
      tokenizeGo (tokens ++ [⟨[c]⟩]) [] false none (some c) rest
    else if isWS c then
      let tokens := if jsTrim ⟨cur⟩ ≠ "" then tokens ++ [jsTrim ⟨cur⟩] else tokens
      tokenizeGo tokens [] inStr qc (some c) rest
    else tokenizeGo tokens (cur ++ [c]) inStr qc (some c) rest

def tokenizeExpression (expr : String) : List String :=
  tokenizeGo [] [] false none none expr.data

/-! ## String-literal unescaping (`parseString`) -/

/-- The escape table `{n, t, r, \\, ", '}` of `parseString`. -/
def escMap (c : Char) : Option Char :=
  if c = 'n' then some '\n'
  else if c = 't' then some '\t'
  else if c = 'r' then some '\r'
  else if c = '\\' then some '\\'
  else if c = '"' then some '"'
  else if c = '\'' then some '\'' else none

def escGo : List Char → List Char
  | [] => []
  | c :: rest =>
    if c = '\\' then
      match rest with
      | [] => [c]
      | c2 :: rest2 =>
        match escMap c2 with
        | some e => e :: escGo rest2
        | none => c :: escGo (c2 :: rest2)
    else c :: escGo rest

/-- `parseString` from `utils/string-parser.ts` (= `_parseString` in
`parser.ts`): process recognized escapes, keep the backslash otherwise. -/
def parseStringEscape (s : String) : String := ⟨escGo s.data⟩

/-! ## Small recognizers -/

/-- The `^\$ENV\{([^}]+)\}$` match of `_parseValue` / `_resolveOperand`. -/
def envRefName (s : String) : Option String :=
  match s.data with
  | '$' :: 'E' :: 'N' :: 'V' :: '{' :: rest =>
    let body := rest.takeWhile (fun c => c ≠ '}')
    if body ≠ [] ∧ rest.drop body.length = ['}'] then some ⟨body⟩ else none
  | _ => none

/-- `^-?\d+(\.\d+)?$`, the numeric-literal regex of `isSimpleLiteral`. -/
def decNumCore (l : List Char) : Bool :=
  let ds := l.takeWhile Char.isDigit
  if ds.isEmpty then false
  else
    match l.drop ds.length with
    | [] => true
    | '.' :: fr => !fr.isEmpty && fr.all Char.isDigit
    | _ => false

def decNumLit (s : String) : Bool :=
  match s.data with
  | '-' :: r => decNumCore r
  | l => decNumCore l

def isQuotedComplete (s : String) : Bool :=
  (headCharIs s '"' ∧ lastCharIs s '"') ∨ (headCharIs s '\'' ∧ lastCharIs s '\'')

def isBracketed (s : String) : Bool :=
  (headCharIs s '[' ∧ lastCharIs s ']') ∨ (headCharIs s '{' ∧ lastCharIs s '}')

/-- `_isSimpleLiteral` from `parser.ts`: complete quoted string with no
operators outside quotes; JSON-valid bracketed text; `true/false/null`;
or a plain decimal numeral. -/
def isSimpleLiteralMain (s : String) : Bool :=
  let s := jsTrim s
  if isQuotedComplete s then ¬ containsOperators s
  else if isBracketed s then jsonValid s
  else if jsLower s = "true" ∨ jsLower s = "false" ∨ jsLower s = "null" then true
  else decNumLit s

/-- The `_containsOperators` helper private to `utils/value-parser.ts`
(the `ucl-parser.ts` pipeline): looks for an extended operator set
anywhere in the text between the outer quotes. -/
def altOpsInInner (s : String) : Bool :=
  (innerText s).data.any fun c =>
    c = '+' ∨ c = '-' ∨ c = '*' ∨ c = '/' ∨ c = '%' ∨ c = '=' ∨ c = '>' ∨
    c = '<' ∨ c = '&' ∨ c = '|' ∨ c = '^' ∨ c = '~' ∨ c = '!' ∨ c = '?' ∨ c = ':'

/-- `isSimpleLiteral` from `utils/value-parser.ts` (the `ucl-parser.ts`
pipeline): differs from `parser.ts` only in the quoted-string branch. -/
def isSimpleLiteralAlt (s : String) : Bool :=
  let s := jsTrim s
  if isQuotedComplete s then ¬ altOpsInInner s
  else if isBracketed s then jsonValid s
  else if jsLower s = "true" ∨ jsLower s = "false" ∨ jsLower s = "null" then true
  else decNumLit s

def isSimpleLiteralVar (alt : Bool) (s : String) : Bool :=
  if alt then isSimpleLiteralAlt s else isSimpleLiteralMain s

/-- `[a-zA-Z_$]` -/
def identStart (c : Char) : Bool := c.isAlpha ∨ c = '_' ∨ c = '$'

/-- `[a-zA-Z0-9_$]` -/
def identChar (c : Char) : Bool := c.isAlphanum ∨ c = '_' ∨ c = '$'

/-- One `\.ident` step of the reference regex; consumes at least 2 chars. -/
def refDots : Nat → List Char → Option (List Char)
  | _, [] => some []
  | 0, _ => none
  | fuel + 1, l =>
    match l with
    | '.' :: c :: rest =>
      if identStart c then refDots fuel (rest.dropWhile identChar) else none
    | _ => some l

/-- One `\[\s*('..'|".."|\d+)\s*\]` accessor of the reference regex. -/
def refAccessor : List Char → Option (List Char)
  | '[' :: rest =>
    let rest := rest.dropWhile isWS
    (match rest with
     | '\'' :: r =>
       let body := r.takeWhile (fun c => c ≠ '\'')
       (match r.drop body.length with
        | '\'' :: r2 => some (r2.dropWhile isWS)
        | _ => none)
     | '"' :: r =>
       let body := r.takeWhile (fun c => c ≠ '"')
       (match r.drop body.length with
        | '"' :: r2 => some (r2.dropWhile isWS)
        | _ => none)
     | c :: _ =>
       if c.isDigit then
         let ds := rest.takeWhile Char.isDigit
         some ((rest.drop ds.length).dropWhile isWS)
       else none
     | [] => none).bind fun r3 =>
      match r3 with
      | ']' :: r4 => some r4
      | _ => none
  | _ => none

def refAccessors : Nat → List Char → Option (List Char)
  | _, [] => some []
  | 0, _ => none
  | fuel + 1, l =>
    match refAccessor l with
    | some rest => refAccessors fuel rest
    | none => some l

/-- `isVariableReference` from `utils/reference-resolver.ts` (the
`ucl-parser.ts` pipeline): just the anchored regex
`^[a-zA-Z_$][a-zA-Z0-9_$]*(\.[a-zA-Z_$][a-zA-Z0-9_$]*)*(\[..\])*$`. -/
def isVariableReference (s : String) : Bool :=
  match s.data with
  | c :: rest =>
    if identStart c then
      match refDots s.data.length (rest.dropWhile identChar) with
      | none => false
      | some afterDots =>
        match refAccessors s.data.length afterDots with
        | some [] => true
        | _ => false
    else false
  | [] => false

/-- `_isVariableReference` from `parser.ts`: a simple literal (quoted
string, numeral, boolean, null, bracketed literal) is never a reference;
otherwise the anchored reference regex. -/
def isVariableReferenceMain (s : String) : Bool :=
  if isSimpleLiteralMain s then false else isVariableReference s

def isVariableReferenceVar (alt : Bool) (s : String) : Bool :=
  if alt then isVariableReference s else isVariableReferenceMain s

/-- `_splitKeyValue`: split on the first `=` outside quotes, trimming both
sides; no such `=` is a Syntax error. -/
def splitKVGo (line : String) (before : List Char) (inStr : Bool)
    (qc : Option Char) (prev : Option Char) : List Char → Except Err (String × String)
  | [] => .error (.synError ("Invalid key-value syntax: " ++ line))
  | c :: rest =>
    if ¬ inStr ∧ (c = '"' ∨ c = '\'') then
      splitKVGo line (before ++ [c]) true (some c) (some c) rest
    else if inStr ∧ some c = qc ∧ prev ≠ some '\\' then
      splitKVGo line (before ++ [c]) false none (some c) rest
    else if ¬ inStr ∧ c = '=' then
      .ok (jsTrim ⟨before⟩, jsTrim ⟨rest⟩)
    else
      splitKVGo line (before ++ [c]) inStr qc (some c) rest

def splitKeyValue (line : String) : Except Err (String × String) :=
  splitKVGo line [] false none none line.data

/-! ## Reference resolver (`utils/reference-resolver.ts`) -/

/-- Walk a value along mapping keys: at each segment the current value must
be a non-array object owning the key (the guard used by both the absolute
loop and the relative retry of `resolveSimpleReference`). -/
def docWalk : Value → List String → Option Value
  | cur, [] => some cur
  | cur, p :: ps =>
    match cur with
    | .vobj f =>
      match f.lookup p with
      | some v => docWalk v ps
      | none => none
    | _ => none

/-- The absolute-walk-failed branch of `resolveSimpleReference`: walk the
section path from the root, then the full reference parts from there;
on any failure raise the Reference error naming the original path. -/
def relRetry (ref : String) (config : Fields) (currentSection : List String) :
    Except Err Value :=
  if currentSection ≠ [] then
    match docWalk (.vobj config) currentSection with
    | some t =>
      match docWalk t (splitDot ref) with
      | some v => .ok v
      | none => .error (.refError ("Cannot resolve reference: " ++ ref))
    | none => .error (.refError ("Cannot resolve reference: " ++ ref))
  else .error (.refError ("Cannot resolve reference: " ++ ref))

def resolveSimpleGo (ref : String) (config : Fields) (currentSection : List String) :
    Value → List String → Except Err Value
  | cur, [] => .ok cur
  | cur, p :: ps =>
    match cur with
    | .vobj f =>
      match f.lookup p with
      | some v => resolveSimpleGo ref config currentSection v ps
      | none => relRetry ref config currentSection
    | _ => relRetry ref config currentSection

/-- `resolveSimpleReference` from `utils/reference-resolver.ts`
(= the bracket-free path of `_resolveReference` in `parser.ts`). -/
def resolveSimpleReference (ref : String) (config : Fields)
    (currentSection : List String) : Except Err Value :=
  resolveSimpleGo ref config currentSection (.vobj config) (splitDot ref)

/-- Model of `ref.match(/([^[.]+)|(\.[^[.]+)|(\[[^\]]+\])/g)`: the ordered
global-scan of the complex-reference splitter. -/
def refPartsGo : Nat → List Char → List String
  | 0, _ => []
  | _ + 1, [] => []
  | fuel + 1, '[' :: rest =>
    let body := rest.takeWhile (fun c => c ≠ ']')
    (match body, rest.drop body.length with
     | _ :: _, ']' :: after => (⟨'[' :: body ++ [']']⟩ : String) :: refPartsGo fuel after
     | _, _ => refPartsGo fuel rest)
  | fuel + 1, '.' :: rest =>
    let run := rest.takeWhile (fun c => c ≠ '[' ∧ c ≠ '.')
    (match run with
     | [] => refPartsGo fuel rest
     | _ :: _ => (⟨'.' :: run⟩ : String) :: refPartsGo fuel (rest.drop run.length))
  | fuel + 1, c :: rest =>
    let run := rest.takeWhile (fun x => x ≠ '[' ∧ x ≠ '.')
    (⟨c :: run⟩ : String) :: refPartsGo fuel (rest.drop run.length)

def refParts (ref : String) : List String :=
  refPartsGo (ref.data.length + 1) ref.data

/-- `part.replace(/^\./, "")` -/
def stripLeadingDot (s : String) : String :=
  match s.data with
  | '.' :: rest => ⟨rest⟩
  | _ => s

/-- `accessor.replace(/^['"]|['"]$/g, "")` -/
def stripQuoteEnds (s : String) : String :=
  let l := s.data
  let l := match l with
    | c :: rest => if c = '"' ∨ c = '\'' then rest else l
    | [] => l
  match l.getLast? with
  | some c => if c = '"' ∨ c = '\'' then ⟨l.dropLast⟩ else ⟨l⟩
  | none => ⟨l⟩

/-! ## Type converter (`utils/type-converter.ts` = `_convertType`) -/

/-- The `targetType === "int"` branch of `convertType`: `Math.floor` of a
number, parse-then-floor of a numeric string, 0 for null, Type error
otherwise. -/
def convertInt (value : Value) : Except Err Value :=
  match value with
  | .vnum q => .ok (.vnum (JNum.ofInt q.floor))
  | .vstr s =>
    (match jsStrToNumber s with
     | some q => .ok (.vnum (JNum.ofInt q.floor))
     | none => .error (.typeError ("Cannot convert '" ++ s ++ "' to int")))
  | .vnull => .ok (.vnum (JNum.ofInt 0))
  | v => .error (.typeError ("Cannot convert '" ++ jsString v ++ "' to int"))

/-- The `targetType === "float"` branch of `convertType`. -/
def convertFloat (value : Value) : Except Err Value :=
  match value with
  | .vnum q => .ok (.vnum q)
  | .vstr s =>
    (match jsStrToNumber s with
     | some q => .ok (.vnum q)
     | none => .error (.typeError ("Cannot convert '" ++ s ++ "' to float")))
  | .vnull => .ok (.vnum (JNum.ofInt 0))
  | v => .error (.typeError ("Cannot convert '" ++ jsString v ++ "' to float"))

/-- The `targetType === "string"` branch of `convertType`. -/
def convertStr (value : Value) : Except Err Value :=
  match value with
  | .vbool b => .ok (.vstr (if b then "true" else "false"))
  | .vnull => .ok (.vstr "null")
  | v => .ok (.vstr (jsString v))

/-- The `targetType === "bool"` branch of `convertType`: boolean
unchanged, number nonzero, string membership in `{true,yes,1}` /
`{false,no,0}` case-insensitively, null false, else Type error. -/
def convertBool (value : Value) : Except Err Value :=
  match value with
  | .vbool b => .ok (.vbool b)
  | .vnum q => .ok (.vbool (q ≠ JNum.ofInt 0))
  | .vstr s =>
    let lowerVal := jsLower s
    if lowerVal = "true" ∨ lowerVal = "yes" ∨ lowerVal = "1" then .ok (.vbool true)
    else if lowerVal = "false" ∨ lowerVal = "no" ∨ lowerVal = "0" then .ok (.vbool false)
    else .error (.typeError ("Cannot convert string '" ++ s ++ "' to bool"))
  | .vnull => .ok (.vbool false)
  | v => .error (.typeError ("Cannot convert '" ++ jsString v ++ "' to bool"))

/-- `convertType`: the `.int/.float/.string/.bool` conversions.  Note the
`int` branch uses `Math.floor` (round toward negative infinity). -/
def convertType (value : Value) (targetType : String) : Except Err Value :=
  if targetType = "int" then convertInt value
  else if targetType = "float" then convertFloat value
  else if targetType = "string" then convertStr value
  else if targetType = "bool" then convertBool value
  else .error (.typeError ("Unknown target type: " ++ targetType))

/-! ## Expression evaluation passes (`_evaluateSimpleExpression`) -/

/-- `_toNumber`: numbers pass through, numeric strings parse, `null` is
`0`, anything else is a Type error. -/
def toNumber (v : Value) : Except Err JNum :=
  match v with
  | .vnum q => .ok q
  | .vstr s =>
    (match jsStrToNumber s with
     | some q => .ok q
     | none => .error (.typeError ("Cannot convert '" ++ s ++ "' to number")))
  | .vnull => .ok (JNum.ofInt 0)
  | v => .error (.typeError ("Cannot convert '" ++ jsString v ++ "' to number"))

/-- Pass 2 of `_evaluateSimpleExpression`: a left-to-right sweep applying
`*`, `/`, `%`, popping the previous result as left operand and taking the
next token as right operand; `/ 0` and `% 0` are Type errors (checked
after both operands are numerically coerced). -/
def pass2 : List Value → List Value → Except Err (List Value)
  | acc, [] => .ok acc.reverse
  | acc, t :: rest =>
    if t = .vstr "*" ∨ t = .vstr "/" ∨ t = .vstr "%" then
      match acc with
      | [] => .error (.synError ("Missing left operand for operator '" ++ jsString t ++ "'"))
      | l :: acc' =>
        (toNumber l).bind fun ln =>
          match rest with
          | [] => .error (.synError ("Missing right operand for operator '" ++ jsString t ++ "'"))
          | r :: rest' =>
            (toNumber r).bind fun rn =>
              if t = .vstr "*" then pass2 (.vnum (ln.mul rn) :: acc') rest'
              else if t = .vstr "/" then
                if rn = JNum.ofInt 0 then .error (.typeError "Division by zero")
                else pass2 (.vnum (ln.div rn) :: acc') rest'
              else
                if rn = JNum.ofInt 0 then .error (.typeError "Modulo by zero")
                else pass2 (.vnum (ln.mod rn) :: acc') rest'
    else pass2 (t :: acc) rest

/-- `String(..)` of a possibly-undefined JS value. -/
def jsStrOfOpt : Option Value → String
  | none => "undefined"
  | some v => jsString v

def isStrOpt : Option Value → Bool
  | some (.vstr _) => true
  | _ => false

/-- Pass 3 of `_evaluateSimpleExpression`: a left-to-right sweep applying
`+`, `-`; `+` concatenates when either operand is a string (undefined
operands render as `"undefined"`, JS-style), otherwise adds numerically;
`-` always subtracts numerically. -/
def pass3 : List Value → List Value → Except Err (List Value)
  | acc, [] => .ok acc.reverse
  | acc, t :: rest =>
    if t = .vstr "+" ∨ t = .vstr "-" then
      let left := acc.head?
      let acc' := acc.tail
      match rest with
      | r :: rest' =>
        if t = .vstr "+" then
          if isStrOpt left ∨ isStrOpt (some r) then
            pass3 (.vstr (jsStrOfOpt left ++ jsStrOfOpt (some r)) :: acc') rest'
          else
            match left with
            | some l =>
              (toNumber l).bind fun ln =>
                (toNumber r).bind fun rn => pass3 (.vnum (ln.add rn) :: acc') rest'
            | none => .error (.typeError "Operand is undefined in addition")
        else
          match left with
          | some l =>
            (toNumber l).bind fun ln =>
              (toNumber r).bind fun rn => pass3 (.vnum (ln.sub rn) :: acc') rest'
          | none => .error (.typeError "Operand is undefined in subtraction")
      | [] =>
        if t = .vstr "+" then
          if isStrOpt left then
            .ok ((.vstr (jsStrOfOpt left ++ "undefined") :: acc').reverse)
          else .error (.typeError "Operand is undefined in addition")
        else .error (.typeError "Operand is undefined in subtraction")
    else pass3 (t :: acc) rest

/-- `evaluatedTokens[0] !== undefined ? evaluatedTokens[0] : null` -/
def firstOrNull : List Value → Value
  | [] => .vnull
  | x :: _ => x

/-- `expr.lastIndexOf("(")` -/
def lastIdxOf (c : Char) (l : List Char) : Option Nat :=
  l.enum.foldl (fun acc p => if p.2 = c then some p.1 else acc) none

/-- The matching-parenthesis scan of `_evaluateExpression`, starting at the
`(` itself; returns the offset of the matching `)` from the start. -/
def findCloseParen : Nat → Nat → List Char → Option Nat
  | _, _, [] => none
  | cnt, i, c :: rest =>
    let cnt' := if c = '(' then cnt + 1 else if c = ')' then cnt - 1 else cnt
    if cnt' = 0 ∧ c = ')' then some i else findCloseParen cnt' (i + 1) rest

/-! ## Array-literal splitting (`_parseArray` / `parseArray`) -/

/-- Model of `content.replace(/\s*\n\s*/g, " ")`: any whitespace run
containing a newline collapses to a single space. -/
def collapseNLF : Nat → List Char → List Char
  | 0, l => l
  | _ + 1, [] => []
  | fuel + 1, c :: rest =>
    if isWS c then
      let run := (c :: rest).takeWhile isWS
      if run.contains '\n' then ' ' :: collapseNLF fuel ((c :: rest).drop run.length)
      else run ++ collapseNLF fuel ((c :: rest).drop run.length)
    else c :: collapseNLF fuel rest

def collapseNL (s : String) : String := ⟨collapseNLF (s.data.length + 1) s.data⟩

/-- The element scanner of `parseArray`: split on top-level commas,
tracking nested `[]`/`{}` depth and quoted spans (escape-aware). -/
def arraySplitGo (cur : List Char) (elems : List String) (bc brc : Int)
    (inStr : Bool) (qc prev : Option Char) : List Char → List String
  | [] => elems ++ [⟨cur⟩]
  | c :: rest =>
    if ¬ inStr ∧ (c = '"' ∨ c = '\'') then
      arraySplitGo (cur ++ [c]) elems bc brc true (some c) (some c) rest
    else if inStr ∧ some c = qc then
      if prev = some '\\' then arraySplitGo (cur ++ [c]) elems bc brc true qc (some c) rest
      else arraySplitGo (cur ++ [c]) elems bc brc false none (some c) rest
    else if ¬ inStr then
      if c = '[' then arraySplitGo (cur ++ [c]) elems (bc + 1) brc inStr qc (some c) rest
      else if c = ']' then arraySplitGo (cur ++ [c]) elems (bc - 1) brc inStr qc (some c) rest
      else if c = '{' then arraySplitGo (cur ++ [c]) elems bc (brc + 1) inStr qc (some c) rest
      else if c = '}' then arraySplitGo (cur ++ [c]) elems bc (brc - 1) inStr qc (some c) rest
      else if c = ',' ∧ bc = 0 ∧ brc = 0 then
        arraySplitGo [] (elems ++ [⟨cur⟩]) bc brc inStr qc (some c) rest
      else arraySplitGo (cur ++ [c]) elems bc brc inStr qc (some c) rest
    else arraySplitGo (cur ++ [c]) elems bc brc inStr qc (some c) rest

/-- The raw (pre-`parseValue`) comma-split pieces of an array literal. -/
def arrayRawElems (s : String) : List String :=
  let content := jsTrim (innerText s)
  if content = "" then []
  else arraySplitGo [] [] 0 0 false none none (collapseNL content).data

/-! ## The mutually recursive evaluation core

One fueled mutual block covering `_parseValue`, `_parseSimpleValue`,
`_parseArray`, `_evaluateExpression`, `_evaluateSimpleExpression`,
`_resolveOperand`, `_resolveReference` and `_resolveComplexReference`.
`alt = false` follows `parser.ts`, `alt = true` follows the
`ucl-parser.ts` + `utils/` pipeline; the two differ only in
`isSimpleLiteral` and in the quoted-string branch of `_resolveOperand`. -/

/-- Read-only parser state visible to value evaluation: the in-progress
document, the current section path, and the environment collaborator. -/
structure EvalSt where
  config : Fields
  currentSection : List String
  env : String → Option String

mutual

/-- `_resolveReference`: dispatch to the complex resolver when the text
contains a bracket, otherwise the simple dotted-path resolver. -/
def resolveReferenceF (fuel : Nat) (st : EvalSt) (ref : String) : Except Err Value :=
  match fuel with
  | 0 => .error .fuelError
  | fuel + 1 =>
    if containsChar ref '[' ∨ containsChar ref ']' then
      let parts := refParts ref
      if parts = [] then .error (.synError ("Invalid complex reference format: " ++ ref))
      else resolveComplexGo fuel st ref .vnull false parts
    else resolveSimpleReference ref st.config st.currentSection

/-- The part-by-part loop of `_resolveComplexReference`. -/
def resolveComplexGo (fuel : Nat) (st : EvalSt) (ref : String) (cur : Value)
    (handled : Bool) (parts : List String) : Except Err Value :=
  match fuel with
  | 0 => .error .fuelError
  | fuel + 1 =>
    match parts with
    | [] => .ok cur
    | part :: rest =>
      if part = "" then resolveComplexGo fuel st ref cur handled rest
      else if ¬ headCharIs part '[' then
        if ¬ handled then
          (resolveReferenceF fuel st (stripLeadingDot part)).bind fun v =>
            resolveComplexGo fuel st ref v true rest
        else
          match cur with
          | .vobj f =>
            let key := stripLeadingDot part
            (match f.lookup key with
             | some v => resolveComplexGo fuel st ref v handled rest
             | none => .error (.refError ("Object key not found: '" ++ key ++
                 "' in reference part '" ++ part ++ "' of '" ++ ref ++ "'")))
          | _ => .error (.refError ("Attempted to access key on a non-object value: '" ++
              part ++ "' in '" ++ ref ++ "'"))
      else
        let accessor := jsTrim (innerText part)
        match cur with
        | .varr elems =>
          (match jsStrToNumber accessor with
           | some q =>
             if renderNum q = accessor then
               if 0 ≤ q.n ∧ q.n * 1 < (elems.length : Int) * (q.d : Int) then
                 if q.d = 1 then
                   match elems.get? q.n.toNat with
                   | some v => resolveComplexGo fuel st ref v handled rest
                   | none => .error (.refError ("Array index " ++ renderNum q ++
                       " resolved to undefined in '" ++ ref ++ "'"))
                 else .error (.refError ("Array index " ++ renderNum q ++
                     " resolved to undefined in '" ++ ref ++ "'"))
               else .error (.refError ("Array index out of bounds: " ++ renderNum q ++
                   " in '" ++ ref ++ "'"))
             else .error (.refError ("Attempted to access key on a non-object value with key '" ++
                 stripQuoteEnds accessor ++ "' in '" ++ ref ++ "'"))
           | none => .error (.refError ("Attempted to access key on a non-object value with key '" ++
               stripQuoteEnds accessor ++ "' in '" ++ ref ++ "'")))
        | .vobj f =>
          (match jsStrToNumber accessor with
           | some q =>
             if renderNum q = accessor then
               .error (.refError ("Attempted to index a non-array value with index " ++
                 renderNum q ++ " in '" ++ ref ++ "'"))
             else
               let key := stripQuoteEnds accessor
               (match f.lookup key with
                | some v => resolveComplexGo fuel st ref v handled rest
                | none => .error (.refError ("Object key not found: '" ++ key ++
                    "' in '" ++ ref ++ "'")))
           | none =>
             let key := stripQuoteEnds accessor
             (match f.lookup key with
              | some v => resolveComplexGo fuel st ref v handled rest
              | none => .error (.refError ("Object key not found: '" ++ key ++
                  "' in '" ++ ref ++ "'"))))
        | _ => .error (.refError ("Attempted to access property on non-object/non-array value: '" ++
            part ++ "' in '" ++ ref ++ "'"))

/-- `_parseValue`: env reference, then type-conversion suffix, then
expression, then variable reference, then simple literal. -/
def parseValueF (alt : Bool) (fuel : Nat) (st : EvalSt) (s : String) : Except Err Value :=
  match fuel with
  | 0 => .error .fuelError
  | fuel + 1 =>
    let s := jsTrim s
    if s = "" then .ok .vnull
    else
      match envRefName s with
      | some name => .ok (match st.env name with | some v => .vstr v | none => .vnull)
      | none =>
        let conv? : Option (String × String) :=
          if containsChar s '.' ∧ ¬ isSimpleLiteralVar alt s then
            let parts := splitDot s
            if 1 < parts.length then
              let suffix := jsLower (parts.getLastD "")
              if suffix = "int" ∨ suffix = "float" ∨ suffix = "string" ∨ suffix = "bool" then
                some (joinWith "." parts.dropLast, suffix)
              else none
            else none
          else none
        match conv? with
        | some (base, ty) => (parseValueF alt fuel st base).bind fun v => convertType v ty
        | none =>
          if containsOperators s ∧ ¬ isSimpleLiteralVar alt s then
            evaluateExpressionF alt fuel st s
          else if ¬ isSimpleLiteralVar alt s ∧ isVariableReferenceVar alt s then
            resolveReferenceF fuel st s
          else parseSimpleValueF alt fuel st s

/-- `_parseSimpleValue`: null/boolean words, quoted string (unescaped),
array, embedded JSON object, decimal number, else plain string. -/
def parseSimpleValueF (alt : Bool) (fuel : Nat) (st : EvalSt) (s : String) :
    Except Err Value :=
  match fuel with
  | 0 => .error .fuelError
  | fuel + 1 =>
    let s := jsTrim s
    if jsLower s = "null" then .ok .vnull
    else if jsLower s = "true" ∨ jsLower s = "false" then .ok (.vbool (jsLower s = "true"))
    else if isQuotedComplete s then .ok (.vstr (parseStringEscape (innerText s)))
    else if headCharIs s '[' ∧ lastCharIs s ']' then
      (parseArrayElemsF alt fuel st (arrayRawElems s)).map fun vs => .varr (ValueList.ofList vs)
    else if headCharIs s '{' ∧ lastCharIs s '}' then
      match jsonParse s with
      | some v => .ok v
      | none => .error (.synError ("Invalid JSON object in '" ++ s ++ "'"))
    else
      match jsStrToNumber s with
      | some q => .ok (.vnum q)
      | none => .ok (.vstr s)

/-- The per-element recursion of `_parseArray`: skip blank pieces, parse
the rest through `_parseValue`. -/
def parseArrayElemsF (alt : Bool) (fuel : Nat) (st : EvalSt) (elems : List String) :
    Except Err (List Value) :=
  match fuel with
  | 0 => .error .fuelError
  | fuel + 1 =>
    match elems with
    | [] => .ok []
    | e :: rest =>
      if jsTrim e = "" then parseArrayElemsF alt fuel st rest
      else
        (parseValueF alt fuel st (jsTrim e)).bind fun v =>
          (parseArrayElemsF alt fuel st rest).map fun vs => v :: vs

/-- `_resolveOperand`: quoted string, env reference, variable reference,
simple literal.  `parser.ts` unescapes the quoted operand via
`_parseString` and its reference test short-circuits on simple literals;
`ucl-parser.ts` strips the quotes without unescaping and uses the bare
reference regex. -/
def resolveOperandF (alt : Bool) (fuel : Nat) (st : EvalSt) (s : String) :
    Except Err Value :=
  match fuel with
  | 0 => .error .fuelError
  | fuel + 1 =>
    let o := jsTrim s
    if o = "" then .ok .vnull
    else if isQuotedComplete o then
      if alt then .ok (.vstr (innerText o))
      else .ok (.vstr (parseStringEscape (innerText o)))
    else
      match envRefName o with
      | some name => .ok (match st.env name with | some v => .vstr v | none => .vnull)
      | none =>
        if isVariableReferenceVar alt o then resolveReferenceF fuel st o
        else parseSimpleValueF alt fuel st o

/-- The operand-resolution sweep (pass 1) of `_evaluateSimpleExpression`. -/
def resolveTokensF (alt : Bool) (fuel : Nat) (st : EvalSt) (toks : List String) :
    Except Err (List Value) :=
  match fuel with
  | 0 => .error .fuelError
  | fuel + 1 =>
    match toks with
    | [] => .ok []
    | t :: rest =>
      if isOperatorTok t then
        (resolveTokensF alt fuel st rest).map fun vs => .vstr t :: vs
      else
        (resolveOperandF alt fuel st t).bind fun v =>
          (resolveTokensF alt fuel st rest).map fun vs => v :: vs

/-- `_evaluateSimpleExpression`: tokenize, resolve operands, then the
`* / %` pass, then the `+ -` pass; the first remaining token (or null). -/
def evaluateSimpleExpressionF (alt : Bool) (fuel : Nat) (st : EvalSt) (expr : String) :
    Except Err Value :=
  match fuel with
  | 0 => .error .fuelError
  | fuel + 1 =>
    (resolveTokensF alt fuel st (tokenizeExpression expr)).bind fun vals =>
      (pass2 [] vals).bind fun v2 =>
        (pass3 [] v2).map firstOrNull

/-- `_evaluateExpression`: repeatedly take the innermost-rightmost fully
matched `( .. )`, evaluate its contents flat, splice the stringified
result back; then evaluate the paren-free remainder. -/
def evaluateExpressionF (alt : Bool) (fuel : Nat) (st : EvalSt) (expr : String) :
    Except Err Value :=
  match fuel with
  | 0 => .error .fuelError
  | fuel + 1 =>
    if containsChar expr '(' then
      match lastIdxOf '(' expr.data with
      | none => evaluateSimpleExpressionF alt fuel st expr
      | some start =>
        match findCloseParen 0 0 (expr.data.drop start) with
        | none => .error (.synError ("Mismatched parentheses in expression: " ++ expr))
        | some off =>
          let inner : String := ⟨(expr.data.drop (start + 1)).take (off - 1)⟩
          (evaluateSimpleExpressionF alt fuel st inner).bind fun res =>
            let expr' : String :=
              ⟨expr.data.take start ++ (jsString res).data ++ expr.data.drop (start + off + 1)⟩
            evaluateExpressionF alt fuel st expr'
    else evaluateSimpleExpressionF alt fuel st expr

end

/-! ## Document assembler (`_parseLines` and friends) -/

/-- The shared walk of `_setNestedValue` / `_setNestedValueByPath`: descend
along the path, replacing any intermediate value that is not a plain
object (null, array, scalar or absent) by a fresh `{}`, then assign the
last segment. -/
def setParts : Fields → List String → Value → Fields
  | fields, [], _ => fields
  | fields, [k], v => fields.setKey k v
  | fields, k :: k2 :: rest, v =>
    let sub : Fields :=
      match fields.lookup k with
      | some (.vobj f) => f
      | _ => .fnil
    fields.setKey k (.vobj (setParts sub (k2 :: rest) v))

/-- `_setNestedValueByPath`: assign at a full dotted path. -/
def setNestedValueByPath (config : Fields) (path : String) (v : Value) : Fields :=
  setParts config (splitDot path) v

/-- `_setNestedValue`: assign `key` under the current section path. -/
def setNestedValue (config : Fields) (currentSection : List String)
    (key : String) (v : Value) : Fields :=
  setParts config (currentSection ++ [key]) v

def getNestedGo (path : String) : Value → List String → Except Err Value
  | cur, [] => .ok cur
  | cur, p :: ps =>
    match cur with
    | .vobj f =>
      (match f.lookup p with
       | some v => getNestedGo path v ps
       | none => .error (.refError ("Path not found: " ++ path)))
    | _ => .error (.refError ("Path not found: " ++ path))

/-- `_getNestedValue`: read a dotted path from the document root;
any missing or non-mapping step is a Reference error naming the path. -/
def getNestedValue (config : Fields) (path : String) : Except Err Value :=
  getNestedGo path (.vobj config) (splitDot path)

/-- One entry of `_applyDefaults`: read the path; a `null` value or a
Reference-error miss is overwritten with the default; any other error
would be rethrown; a non-null value is left untouched. -/
def applyDefaultsStep (config : Fields) (path : String) (v : Value) :
    Except Err Fields :=
  match getNestedValue config path with
  | .ok cur => if cur = .vnull then .ok (setNestedValueByPath config path v) else .ok config
  | .error e =>
    match e with
    | .refError _ => .ok (setNestedValueByPath config path v)
    | _ => .error e

/-- `_applyDefaults`: fold the recorded (path, default) pairs, in table
order, over the assembled document. -/
def applyDefaults (config : Fields) : List (String × Value) → Except Err Fields
  | [] => .ok config
  | (path, v) :: rest =>
    (applyDefaultsStep config path v).bind fun config' => applyDefaults config' rest

/-- The defaults table built while in the `[Defaults]` block: JS-object
insertion semantics (`this.defaults[key] = value`). -/
def setDefault (defaults : List (String × Value)) (key : String) (v : Value) :
    List (String × Value) :=
  match defaults with
  | [] => [(key, v)]
  | (k, w) :: rest => if k = key then (k, v) :: rest else (k, w) :: setDefault rest key v

/-- A trimmed line of the shape `[...]` (a section header). -/
def isHeaderLine (t : String) : Bool := headCharIs t '[' ∧ lastCharIs t ']'

/-- `_parseDefaultsSection`: processes every remaining line; blank lines
skip, any section header is the `Defaults section must be at the end of
the file` Syntax error, lines with `=` record an entry, other lines are
ignored.  The document and section path are read-only here, so they are
passed as fixed parameters. -/
def parseDefaultsSection (alt : Bool) (vfuel : Nat) (st : EvalSt)
    (defaults : List (String × Value)) :
    List String → Except Err (List (String × Value))
  | [] => .ok defaults
  | l :: rest =>
    let t := jsTrim l
    if t = "" then parseDefaultsSection alt vfuel st defaults rest
    else if isHeaderLine t then
      .error (.synError "Defaults section must be at the end of the file")
    else if containsChar t '=' then
      (splitKeyValue t).bind fun (key, valuePart) =>
        (parseValueF alt vfuel st valuePart).bind fun v =>
          parseDefaultsSection alt vfuel st (setDefault defaults key v) rest
    else parseDefaultsSection alt vfuel st defaults rest

/-- One brace/bracket-count step of `_parseMultilineValue`
(`line.match(/{/g)?.length` differences). -/
def braceDelta (opens closes : Char) (l : List Char) : Int :=
  (l.filter (fun c => c = opens)).length - (l.filter (fun c => c = closes)).length

/-- The continuation loop of `_parseMultilineValue`: consume following
non-blank lines (joined with `\n`, trimmed) until the count returns to
zero; returns the accumulated text and the unconsumed lines. -/
def multilineGo (opens closes : Char) (acc : String) (count : Int) :
    List String → String × List String
  | [] => (acc, [])
  | l :: rest =>
    if count ≤ 0 then (acc, l :: rest)
    else
      let t := jsTrim l
      if t = "" then multilineGo opens closes acc count rest
      else multilineGo opens closes (acc ++ "\n" ++ t) (count + braceDelta opens closes t.data) rest

/-- `_parseMultilineValue`. -/
def parseMultilineValue (valuePart : String) (rest : List String) : String × List String :=
  let v := jsTrim valuePart
  if headCharIs v '{' then
    multilineGo '{' '}' v (braceDelta '{' '}' v.data) rest
  else if headCharIs v '[' then
    multilineGo '[' ']' v (braceDelta '[' ']' v.data) rest
  else (valuePart, rest)

/-- The no-`=` branch of `_parseKeyValue`: lines that carry none of
`[ ] { } , " '` are a Syntax error, anything else is skipped. -/
def strayLineOk (t : String) : Bool :=
  ¬ (t ≠ "" ∧ ¬ headCharIs t '[' ∧ ¬ lastCharIs t ']' ∧ t ≠ "\x7b" ∧ t ≠ "\x7d" ∧
     ¬ t.data.any fun c => c = '[' ∨ c = ']' ∨ c = '{' ∨ c = '}' ∨ c = ',' ∨ c = '"' ∨ c = '\'')

/-- `_parseKeyValue`: split a key-value line, consume a multi-line
structured value if one starts, parse the value and store it under the
current section; returns the new document and the unconsumed lines. -/
def parseKeyValue (alt : Bool) (vfuel : Nat) (env : String → Option String)
    (config : Fields) (currentSection : List String) (line : String)
    (rest : List String) : Except Err (Fields × List String) :=
  let t := jsTrim line
  if ¬ containsChar t '=' then
    if strayLineOk t then .ok (config, rest)
    else .error (.synError ("Invalid syntax: line without equals sign: " ++ t))
  else
    (splitKeyValue t).bind fun (key, valuePart) =>
      if headCharIs (jsTrim valuePart) '{' ∨ headCharIs (jsTrim valuePart) '[' then
        let (valueStr, rest') := parseMultilineValue valuePart rest
        (parseValueF alt vfuel ⟨config, currentSection, env⟩ valueStr).map fun v =>
          (setNestedValue config currentSection key v, rest')
      else
        (parseValueF alt vfuel ⟨config, currentSection, env⟩ valuePart).map fun v =>
          (setNestedValue config currentSection key v, rest)

/-- `_parseLines`: the sequential line loop.  Headers replace the section
path; a `defaults` header (case-insensitive) hands the remaining lines to
the defaults block and stops; other lines are key-value lines. -/
def parseLinesF (alt : Bool) (fuel vfuel : Nat) (env : String → Option String)
    (config : Fields) (currentSection : List String)
    (defaults : List (String × Value)) :
    List String → Except Err (Fields × List (String × Value))
  | [] => .ok (config, defaults)
  | l :: rest =>
    match fuel with
    | 0 => .error .fuelError
    | fuel + 1 =>
      let t := jsTrim l
      if t = "" then parseLinesF alt fuel vfuel env config currentSection defaults rest
      else if isHeaderLine t then
        let sectionName := jsTrim (innerText t)
        if jsLower sectionName = "defaults" then
          (parseDefaultsSection alt vfuel ⟨config, currentSection, env⟩ defaults rest).map
            fun defaults' => (config, defaults')
        else
          parseLinesF alt fuel vfuel env config (splitDot sectionName) defaults rest
      else
        (parseKeyValue alt vfuel env config currentSection l rest).bind
          fun (config', rest') =>
            parseLinesF alt fuel vfuel env config' currentSection defaults rest'

/-! ## Include expander (`_processIncludes`) -/

/-- The `^include\s+["']([^"']+)["']$` match (either quote may close,
as in the JS character class). -/
def includePathOf (t : String) : Option String :=
  match t.data with
  | 'i' :: 'n' :: 'c' :: 'l' :: 'u' :: 'd' :: 'e' :: rest =>
    let ws := rest.takeWhile isWS
    if ws.isEmpty then none
    else
      (match rest.drop ws.length with
       | q :: r =>
         if q = '"' ∨ q = '\'' then
           let body := r.takeWhile fun c => c ≠ '"' ∧ c ≠ '\''
           (match body, r.drop body.length with
            | _ :: _, [q2] => if q2 = '"' ∨ q2 = '\'' then some ⟨body⟩ else none
            | _, _ => none)
         else none
       | [] => none)
  | _ => none

def lineIsIncludeDirective (t : String) : Bool :=
  "include ".data.isPrefixOf t.data

/-- `_processIncludes`: splice each include target (comment-stripped and
recursively expanded, always against the top-level base path) in place of
its directive line.  The file-system collaborator is a partial map from
resolved paths to contents. -/
def processIncludesF (fuel : Nat) (fs : String → Option String) (basePath : String) :
    List String → Except Err (List String)
  | [] => .ok []
  | l :: rest =>
    match fuel with
    | 0 => .error .fuelError
    | fuel + 1 =>
      let t := jsTrim l
      if lineIsIncludeDirective t then
        match includePathOf t with
        | some includePath =>
          -- `resolve(basePath, includePath)` is modelled as path concatenation.
          (match fs (basePath ++ "/" ++ includePath) with
           | some content =>
             (processIncludesF fuel fs basePath
                 (jsSplit '\n' (removeComments content))).bind fun expanded =>
               (processIncludesF fuel fs basePath rest).map fun tail => expanded ++ tail
           | none => .error (.genError ("Include file not found: " ++ includePath)))
        | none => .error (.synError ("Invalid include syntax: " ++ l))
      else
        (processIncludesF fuel fs basePath rest).map fun tail => l :: tail

/-- `parseString` (`alt = false`: `parser.ts`; `alt = true`:
`ucl-parser.ts`): strip comments, split lines, expand includes, assemble
the document, apply defaults. -/
def parseStringVar (alt : Bool) (fuel : Nat) (env : String → Option String)
    (fs : String → Option String) (basePath : String) (content : String) :
    Except Err Fields :=
  let lines := jsSplit '\n' (removeComments content)
  (processIncludesF fuel fs basePath lines).bind fun lines' =>
    (parseLinesF alt fuel fuel env .fnil [] [] lines').bind fun (config, defaults) =>
      applyDefaults config defaults


/-! ## Shared fixtures for concrete evaluations -/

/-- An environment collaborator with no variables set. -/
def envEmpty : String → Option String := fun _ => none

/-- A file-system collaborator with no files. -/
def fsEmpty : String → Option String := fun _ => none

/-- Evaluation state over an empty document. -/
def emptySt : EvalSt := ⟨Fields.fnil, [], envEmpty⟩

/-- A small concrete document used to instantiate general theorems. -/
def exampleDoc : Fields :=
  Fields.ofList
    [("a", .vobj (Fields.ofList [("b", .vnull)])),
     ("c", .vnum (JNum.ofInt 1))]

/-- A line of a `[Defaults]` block that processes without raising: blank,
or no section header and either no `=` or a well-formed entry whose value
parses.  (The document and section path are fixed while the block runs.) -/
def defaultsLineOk (alt : Bool) (vfuel : Nat) (st : EvalSt) (l : String) : Prop :=
  jsTrim l = "" ∨
    (isHeaderLine (jsTrim l) = false ∧
      (containsChar (jsTrim l) '=' = false ∨
        ∃ kv v, splitKeyValue (jsTrim l) = .ok kv ∧ parseValueF alt vfuel st kv.2 = .ok v))

end UCL

set_option maxRecDepth 10000

namespace UCL

/-! ## Behavioural sanity checks of the embedding -/

example : jsStrToNumber " -2.5 " = some (JNum.normInt (-5) 2) := by decide
example : jsStrToNumber "0x10" = some (JNum.ofInt 16) := by decide
example : jsStrToNumber "-0x10" = none := by decide
example : jsStrToNumber "0b101" = some (JNum.ofInt 5) := by decide
example : jsStrToNumber "0o17" = some (JNum.ofInt 15) := by decide
example : jsStrToNumber "0x" = none := by decide
example : jsonParse "\"\\u0041B\"" = some (.vstr "AB") := by decide
example : jsonParse "\"\\uD83D\\uDE00\"" = some (.vstr "😀") := by decide
example : resolveOperandF false 99 emptySt "true" = .ok (.vbool true) := by decide
example : resolveOperandF true 99 emptySt "true" =
    .error (.refError "Cannot resolve reference: true") := by decide
example : renderNum (JNum.normInt 5 2) = "2.5" := by decide
example : JNum.mod (JNum.ofInt (-7)) (JNum.ofInt 3) = JNum.ofInt (-1) := by decide
example : removeComments "a = 1 // note\nb = \"x//y\" // c" = "a = 1 \nb = \"x//y\" " := by decide
example : tokenizeExpression "(5 + 3) * 2" = ["(", "5", "+", "3", ")", "*", "2"] := by decide
example : parseStringEscape "a\\qb" = "a\\qb" := by decide
example : isSimpleLiteralMain "\"a\" + \"b\"" = false := by decide
example : isVariableReference "users[0][\"name\"]" = true := by decide
example : splitKeyValue "a = \"x=y\"" = .ok ("a", "\"x=y\"") := by decide
example : refParts "Data.users[0][\"name\"]" = ["Data", ".users", "[0]", "[\"name\"]"] := by
  decide
example : resolveSimpleReference "x" (Fields.ofList [("S", .vobj (Fields.ofList [("x", .vbool true)]))]) ["S"]
    = .ok (.vbool true) := by decide
example : parseValueF false 99 emptySt "\"123\".int" = .ok (.vnum (JNum.ofInt 123)) := by decide
example : parseValueF false 99 emptySt "\"abc\".int"
    = .error (.typeError "Cannot convert 'abc' to int") := by decide
example : parseValueF false 99 emptySt "[1, \"two\", true]"
    = .ok (.varr (ValueList.ofList [.vnum (JNum.ofInt 1), .vstr "two", .vbool true])) := by decide
example : parseStringVar false 99 envEmpty fsEmpty "." "x = 1\n// only\n" =
    .ok (Fields.ofList [("x", .vnum (JNum.ofInt 1))]) := by decide
example : parseStringVar false 99 envEmpty fsEmpty "."
    "[Config]\nexisting_key = \"existing_value\"\nnull_key = null\n[Defaults]\nConfig.existing_key = \"default_value\"\nConfig.null_key = \"default_for_null\"\nConfig.new_key = \"new_default_value\"" =
    .ok (Fields.ofList [("Config", .vobj (Fields.ofList
      [("existing_key", .vstr "existing_value"),
       ("null_key", .vstr "default_for_null"),
       ("new_key", .vstr "new_default_value")]))]) := by decide

end UCL

namespace UCL

/-! ## Supporting lemmas -/

theorem toNumber_ok_not_mulop {l : Value} {a : JNum} (h : toNumber l = .ok a) :
    l ≠ .vstr "*" ∧ l ≠ .vstr "/" ∧ l ≠ .vstr "%" := by
  refine ⟨?_, ?_, ?_⟩ <;> intro he <;> subst he <;> exact Except.noConfusion h

theorem pass2_cons_nonop (acc : List Value) (t : Value) (rest : List Value)
    (h : ¬ (t = .vstr "*" ∨ t = .vstr "/" ∨ t = .vstr "%")) :
    pass2 acc (t :: rest) = pass2 (t :: acc) rest := by
  rw [pass2.eq_def]
  dsimp only []
  rw [if_neg h]

theorem pass2_div_zero (acc : List Value) (l r : Value) (rest : List Value)
    (a : JNum) (hl : toNumber l = .ok a) (hr : toNumber r = .ok (JNum.ofInt 0)) :
    pass2 (l :: acc) (.vstr "/" :: r :: rest) = .error (.typeError "Division by zero") := by
  rw [pass2.eq_def]
  dsimp only []
  rw [if_pos (by simp)]
  simp [hl, hr, Except.bind]

theorem pass2_mod_zero (acc : List Value) (l r : Value) (rest : List Value)
    (a : JNum) (hl : toNumber l = .ok a) (hr : toNumber r = .ok (JNum.ofInt 0)) :
    pass2 (l :: acc) (.vstr "%" :: r :: rest) = .error (.typeError "Modulo by zero") := by
  rw [pass2.eq_def]
  dsimp only []
  rw [if_pos (by simp)]
  simp [hl, hr, Except.bind]

theorem docWalk_append (xs ys : List String) : ∀ cur : Value,
    docWalk cur (xs ++ ys) =
      match docWalk cur xs with
      | some v => docWalk v ys
      | none => none := by
  induction xs with
  | nil => intro cur; rfl
  | cons p ps ih =>
    intro cur
    cases cur with
    | vobj f =>
      simp only [List.cons_append, docWalk]
      cases f.lookup p with
      | some v => exact ih v
      | none => rfl
    | vnull => rfl
    | vbool b => rfl
    | vnum q => rfl
    | vstr s => rfl
    | varr l => rfl

theorem resolveSimpleGo_spec (ref : String) (cfg : Fields) (sect : List String) :
    ∀ (parts : List String) (cur : Value),
      resolveSimpleGo ref cfg sect cur parts =
        match docWalk cur parts with
        | some v => .ok v
        | none => relRetry ref cfg sect := by
  intro parts
  induction parts with
  | nil => intro cur; rfl
  | cons p ps ih =>
    intro cur
    cases cur with
    | vobj f =>
      simp only [resolveSimpleGo, docWalk]
      cases f.lookup p with
      | some v => exact ih v
      | none => rfl
    | vnull => rfl
    | vbool b => rfl
    | vnum q => rfl
    | vstr s => rfl
    | varr l => rfl

/-! ## Claim theorems -/

/-- C2, counterexample: the `.int` conversion does not truncate toward
zero; converting `-2.5` yields `-3` (floor), not `-2` as the claim
states. -/
theorem ucl_c2_counterexample :
    convertType (.vnum (JNum.normInt (-5) 2)) "int" ≠ .ok (.vnum (JNum.ofInt (-2))) ∧
    convertType (.vnum (JNum.normInt (-5) 2)) "int" = .ok (.vnum (JNum.ofInt (-3))) := by
  decide

/-- C2, amended: the `.int` conversion floors (rounds toward negative
infinity, `Math.floor`): a Number is floored, a numeric String is parsed
then floored, Null yields 0, any other value raises a Type error; in
particular `-2.5` converts to `-3`. -/
theorem ucl_c2 :
    (∀ q : JNum, 0 < q.d →
      convertType (.vnum q) "int" = .ok (.vnum (JNum.ofInt (JNum.floor q))) ∧
      JNum.floor q * (q.d : Int) ≤ q.n ∧ q.n < (JNum.floor q + 1) * (q.d : Int)) ∧
    (∀ s q, jsStrToNumber s = some q →
      convertType (.vstr s) "int" = .ok (.vnum (JNum.ofInt (JNum.floor q)))) ∧
    (∀ s, jsStrToNumber s = none →
      convertType (.vstr s) "int" = .error (.typeError ("Cannot convert '" ++ s ++ "' to int"))) ∧
    convertType .vnull "int" = .ok (.vnum (JNum.ofInt 0)) ∧
    (∀ b, convertType (.vbool b) "int" =
      .error (.typeError ("Cannot convert '" ++ (if b then "true" else "false") ++ "' to int"))) ∧
    (∀ l, convertType (.varr l) "int" =
      .error (.typeError ("Cannot convert '" ++ jsString (.varr l) ++ "' to int"))) ∧
    (∀ f, convertType (.vobj f) "int" =
      .error (.typeError ("Cannot convert '" ++ jsString (.vobj f) ++ "' to int"))) ∧
    convertType (.vnum (JNum.normInt (-5) 2)) "int" = .ok (.vnum (JNum.ofInt (-3))) := by
  refine ⟨?_, ?_, ?_, rfl, ?_, fun l => rfl, fun f => rfl, by decide⟩
  · intro q hd
    have hdz : ((q.d : Int)) ≠ 0 := by exact_mod_cast Nat.pos_iff_ne_zero.mp hd
    have hdpos : (0 : Int) < (q.d : Int) := by exact_mod_cast hd
    refine ⟨rfl, ?_, ?_⟩
    · rw [JNum.floor, Int.fdiv_eq_ediv _ (le_of_lt hdpos)]
      exact Int.ediv_mul_le q.n hdz
    · rw [JNum.floor, Int.fdiv_eq_ediv _ (le_of_lt hdpos)]
      exact Int.lt_ediv_add_one_mul_self q.n hdpos
  · intro s q h
    show convertInt (.vstr s) = _
    simp [convertInt, h]
  · intro s h
    show convertInt (.vstr s) = _
    simp [convertInt, h]
  · intro b
    cases b <;> rfl

/-- C2 witness. -/
theorem ucl_c2_witness :
    convertType (.vnum (JNum.normInt 7 2)) "int" = .ok (.vnum (JNum.ofInt 3)) ∧
    convertType (.vstr "2.5") "int" = .ok (.vnum (JNum.ofInt 2)) ∧
    convertType (.vstr "0x10") "int" = .ok (.vnum (JNum.ofInt 16)) ∧
    convertType (.vstr "abc") "int" = .error (.typeError "Cannot convert 'abc' to int") := by
  refine ⟨?_, ?_, ?_, ?_⟩
  · exact ((ucl_c2.1 (JNum.normInt 7 2) (by decide)).1).trans (by decide)
  · exact (ucl_c2.2.1 "2.5" (JNum.normInt 5 2) (by decide)).trans (by decide)
  · exact (ucl_c2.2.1 "0x10" (JNum.ofInt 16) (by decide)).trans (by decide)
  · exact ucl_c2.2.2.1 "abc" (by decide)

/-- C4: bracket-free reference resolution is: walk the full dotted path
absolutely from the document root; if that fails anywhere, retry the whole
path relative to the Section Path (section segments from the root, then
the reference segments); if both fail, a Reference error naming the
original path. -/
theorem ucl_c4 (ref : String) (cfg : Fields) (sect : List String) :
    resolveSimpleReference ref cfg sect =
      match docWalk (.vobj cfg) (splitDot ref) with
      | some v => .ok v
      | none =>
        match docWalk (.vobj cfg) (sect ++ splitDot ref) with
        | some v => .ok v
        | none => .error (.refError ("Cannot resolve reference: " ++ ref)) := by
  rw [resolveSimpleReference, resolveSimpleGo_spec]
  cases habs : docWalk (.vobj cfg) (splitDot ref) with
  | some v => rfl
  | none =>
    show relRetry ref cfg sect = _
    rw [relRetry]
    cases sect with
    | nil => simp [habs]
    | cons s ss =>
      rw [docWalk_append]
      simp only [ne_eq, reduceCtorEq, not_false_eq_true, if_true, List.cons_ne_nil,
        if_neg]
      cases docWalk (.vobj cfg) (s :: ss) <;> rfl

/-- C5: a `/` or `%` whose right operand numerically coerces to zero is a
Type error in the `* / %` pass; in particular `10 / 0` and `10 % 0` raise
Type errors through the full expression evaluator. -/
theorem ucl_c5 (st : EvalSt) (l r : Value) (a : JNum)
    (hl : toNumber l = .ok a) (hr : toNumber r = .ok (JNum.ofInt 0)) :
    pass2 [] [l, .vstr "/", r] = .error (.typeError "Division by zero") ∧
    pass2 [] [l, .vstr "%", r] = .error (.typeError "Modulo by zero") ∧
    evaluateExpressionF false 99 st "10 / 0" = .error (.typeError "Division by zero") ∧
    evaluateExpressionF false 99 st "10 % 0" = .error (.typeError "Modulo by zero") := by
  have hnm := toNumber_ok_not_mulop hl
  refine ⟨?_, ?_, rfl, rfl⟩
  · rw [pass2_cons_nonop _ _ _ (by simp [hnm.1, hnm.2.1, hnm.2.2])]
    exact pass2_div_zero [] l r [] a hl hr
  · rw [pass2_cons_nonop _ _ _ (by simp [hnm.1, hnm.2.1, hnm.2.2])]
    exact pass2_mod_zero [] l r [] a hl hr

/-- C5 witness. -/
theorem ucl_c5_witness :
    pass2 [] [.vnum (JNum.ofInt 10), .vstr "/", .vnum (JNum.ofInt 0)]
      = .error (.typeError "Division by zero") ∧
    pass2 [] [.vnum (JNum.ofInt 10), .vstr "%", .vnum (JNum.ofInt 0)]
      = .error (.typeError "Modulo by zero") :=
  ⟨(ucl_c5 emptySt (.vnum (JNum.ofInt 10)) (.vnum (JNum.ofInt 0)) (JNum.ofInt 10)
      (by decide) (by decide)).1,
   (ucl_c5 emptySt (.vnum (JNum.ofInt 10)) (.vnum (JNum.ofInt 0)) (JNum.ofInt 10)
      (by decide) (by decide)).2.1⟩

/-- C6: expression evaluation resolves parentheses innermost-rightmost
first (Syntax error on a mismatch), then applies `* / %` before `+ -`;
in particular `(5 + 3) * 2 / (10 - 6) % 3` evaluates to the number `1`
and `( 5 + 3` raises a Syntax error. -/
theorem ucl_c6 (st : EvalSt) :
    evaluateExpressionF false 99 st "(5 + 3) * 2 / (10 - 6) % 3" = .ok (.vnum (JNum.ofInt 1)) ∧
    evaluateExpressionF false 99 st "( 5 + 3" =
      .error (.synError "Mismatched parentheses in expression: ( 5 + 3") :=
  ⟨rfl, rfl⟩


theorem pass3_nil (acc : List Value) : pass3 acc [] = .ok acc.reverse := by
  rw [pass3.eq_def]

theorem pass3_cons_nonop (acc : List Value) (t : Value) (rest : List Value)
    (h : ¬ (t = .vstr "+" ∨ t = .vstr "-")) :
    pass3 acc (t :: rest) = pass3 (t :: acc) rest := by
  rw [pass3.eq_def]
  dsimp only []
  rw [if_neg h]

/-- C7: in the `+`/`-` pass, `+` concatenates whenever either operand is a
string (numbers rendered in canonical decimal text, integral values
without a trailing `.0`), adds numerically otherwise, and `-` is always
numeric; in particular `"a" + "b"` gives `"ab"` and `2 + 3` gives `5`. -/
theorem ucl_c7 :
    (∀ s t : String, s ≠ "+" → s ≠ "-" →
      pass3 [] [.vstr s, .vstr "+", .vstr t] = .ok [.vstr (s ++ t)]) ∧
    (∀ (a : JNum) (t : String),
      pass3 [] [.vnum a, .vstr "+", .vstr t] = .ok [.vstr (renderNum a ++ t)]) ∧
    (∀ (s : String) (b : JNum), s ≠ "+" → s ≠ "-" →
      pass3 [] [.vstr s, .vstr "+", .vnum b] = .ok [.vstr (s ++ renderNum b)]) ∧
    (∀ a b : JNum, pass3 [] [.vnum a, .vstr "+", .vnum b] = .ok [.vnum (a.add b)]) ∧
    (∀ a b : JNum, pass3 [] [.vnum a, .vstr "-", .vnum b] = .ok [.vnum (a.sub b)]) ∧
    (∀ (s t : String) (a b : JNum), s ≠ "+" → s ≠ "-" →
      jsStrToNumber s = some a → jsStrToNumber t = some b →
      pass3 [] [.vstr s, .vstr "-", .vstr t] = .ok [.vnum (a.sub b)]) ∧
    (∀ z : Int, renderNum (JNum.ofInt z) =
      if z < 0 then "-" ++ toString z.natAbs else toString z.natAbs) ∧
    (∀ st : EvalSt, evaluateExpressionF false 99 st "\"a\" + \"b\"" = .ok (.vstr "ab") ∧
      evaluateExpressionF false 99 st "2 + 3" = .ok (.vnum (JNum.ofInt 5))) := by
  refine ⟨?_, ?_, ?_, ?_, ?_, ?_, ?_, fun st => ⟨rfl, rfl⟩⟩
  · intro s t hs hs2
    rw [pass3_cons_nonop _ _ _ (by simp [hs, hs2])]
    rw [pass3.eq_def]
    dsimp only []
    rw [if_pos (by simp)]
    simp [isStrOpt, jsStrOfOpt, jsString, pass3_nil]
  · intro a t
    rw [pass3_cons_nonop _ _ _ (by simp)]
    rw [pass3.eq_def]
    dsimp only []
    rw [if_pos (by simp)]
    simp [isStrOpt, jsStrOfOpt, jsString, pass3_nil]
  · intro s b hs hs2
    rw [pass3_cons_nonop _ _ _ (by simp [hs, hs2])]
    rw [pass3.eq_def]
    dsimp only []
    rw [if_pos (by simp)]
    simp [isStrOpt, jsStrOfOpt, jsString, pass3_nil]
  · intro a b
    rw [pass3_cons_nonop _ _ _ (by simp)]
    rw [pass3.eq_def]
    dsimp only []
    rw [if_pos (by simp)]
    simp [isStrOpt, toNumber, Except.bind, pass3_nil]
  · intro a b
    rw [pass3_cons_nonop _ _ _ (by simp)]
    rw [pass3.eq_def]
    dsimp only []
    rw [if_pos (by simp)]
    simp [toNumber, Except.bind, pass3_nil]
  · intro s t a b hs hs2 ha hb
    rw [pass3_cons_nonop _ _ _ (by simp [hs, hs2])]
    rw [pass3.eq_def]
    dsimp only []
    rw [if_pos (by simp)]
    simp [toNumber, Except.bind, ha, hb, pass3_nil]
  · intro z
    by_cases hz : z < 0 <;>
      simp [renderNum, JNum.ofInt, hz, Nat.mod_one, Nat.div_one]

/-- C7 witness. -/
theorem ucl_c7_witness :
    pass3 [] [.vstr "a", .vstr "+", .vstr "b"] = .ok [.vstr "ab"] ∧
    pass3 [] [.vstr "10", .vstr "-", .vstr "4"] = .ok [.vnum (JNum.ofInt 6)] :=
  ⟨ucl_c7.1 "a" "b" (by decide) (by decide),
   (ucl_c7.2.2.2.2.2.1 "10" "4" (JNum.ofInt 10) (JNum.ofInt 4)
      (by decide) (by decide) (by decide) (by decide)).trans (by decide)⟩

/-- C9: the `.bool` conversion returns booleans unchanged, maps numbers to
their nonzero-ness, maps strings case-insensitively through
`{true,yes,1}` / `{false,no,0}` (Type error otherwise), maps Null to
false and errors on arrays/objects; in particular `0.bool` is false,
`100.bool` is true and `"no".bool` is false. -/
theorem ucl_c9 :
    (∀ b, convertType (.vbool b) "bool" = .ok (.vbool b)) ∧
    (∀ q : JNum, q ≠ JNum.ofInt 0 → convertType (.vnum q) "bool" = .ok (.vbool true)) ∧
    convertType (.vnum (JNum.ofInt 0)) "bool" = .ok (.vbool false) ∧
    (∀ s, (jsLower s = "true" ∨ jsLower s = "yes" ∨ jsLower s = "1") →
      convertType (.vstr s) "bool" = .ok (.vbool true)) ∧
    (∀ s, (jsLower s = "false" ∨ jsLower s = "no" ∨ jsLower s = "0") →
      convertType (.vstr s) "bool" = .ok (.vbool false)) ∧
    (∀ s, ¬ (jsLower s = "true" ∨ jsLower s = "yes" ∨ jsLower s = "1") →
      ¬ (jsLower s = "false" ∨ jsLower s = "no" ∨ jsLower s = "0") →
      convertType (.vstr s) "bool" =
        .error (.typeError ("Cannot convert string '" ++ s ++ "' to bool"))) ∧
    convertType .vnull "bool" = .ok (.vbool false) ∧
    (∀ l, convertType (.varr l) "bool" =
      .error (.typeError ("Cannot convert '" ++ jsString (.varr l) ++ "' to bool"))) ∧
    (∀ f, convertType (.vobj f) "bool" =
      .error (.typeError ("Cannot convert '" ++ jsString (.vobj f) ++ "' to bool"))) ∧
    (∀ st : EvalSt, parseValueF false 99 st "0.bool" = .ok (.vbool false) ∧
      parseValueF false 99 st "100.bool" = .ok (.vbool true) ∧
      parseValueF false 99 st "\"no\".bool" = .ok (.vbool false)) := by
  refine ⟨fun b => rfl, ?_, rfl, ?_, ?_, ?_, rfl, fun l => rfl, fun f => rfl,
    fun st => ⟨rfl, rfl, rfl⟩⟩
  · intro q hq
    show convertBool (.vnum q) = _
    simp [convertBool, hq]
  · intro s h
    show convertBool (.vstr s) = _
    rw [convertBool]
    rw [if_pos h]
  · intro s h
    show convertBool (.vstr s) = _
    rw [convertBool]
    rw [if_neg ?_, if_pos h]
    intro habs
    rcases h with h | h | h <;> rcases habs with h2 | h2 | h2 <;> rw [h] at h2 <;>
      exact absurd h2 (by decide)
  · intro s h1 h2
    show convertBool (.vstr s) = _
    rw [convertBool]
    rw [if_neg h1, if_neg h2]

/-- C9 witness. -/
theorem ucl_c9_witness :
    convertType (.vnum (JNum.ofInt 100)) "bool" = .ok (.vbool true) ∧
    convertType (.vstr "no") "bool" = .ok (.vbool false) ∧
    convertType (.vstr "maybe") "bool" =
      .error (.typeError "Cannot convert string 'maybe' to bool") :=
  ⟨ucl_c9.2.1 (JNum.ofInt 100) (by decide),
   ucl_c9.2.2.2.2.1 "no" (by decide),
   (ucl_c9.2.2.2.2.2.1 "maybe" (by decide) (by decide)).trans (by decide)⟩


/-! ## C1: defaults application -/

theorem lookup_setKey_self : ∀ (f : Fields) (k : String) (v : Value),
    (f.setKey k v).lookup k = some v
  | .fnil, k, v => by simp [Fields.setKey, Fields.lookup]
  | .fcons k2 w rest, k, v => by
    by_cases h : k2 = k
    · simp [Fields.setKey, Fields.lookup, h]
    · simp [Fields.setKey, Fields.lookup, h, lookup_setKey_self rest k v]

theorem getNested_setParts (path : String) :
    ∀ (parts : List String) (cfg : Fields) (v : Value), parts ≠ [] →
      getNestedGo path (.vobj (setParts cfg parts v)) parts = .ok v := by
  intro parts
  induction parts with
  | nil => intro cfg v h; exact absurd rfl h
  | cons k rest ih =>
    intro cfg v _
    cases rest with
    | nil => simp [setParts, getNestedGo, lookup_setKey_self]
    | cons k2 rest2 =>
      simp only [setParts, getNestedGo, lookup_setKey_self]
      exact ih _ v (by simp)

theorem splitChars_ne_nil (c : Char) (l : List Char) : splitChars c l ≠ [] := by
  induction l with
  | nil => simp [splitChars]
  | cons x xs ih =>
    rw [splitChars.eq_def]
    dsimp only []
    cases h : splitChars c xs with
    | nil => simp
    | cons hd tl => dsimp only []; split <;> simp

theorem splitDot_ne_nil (s : String) : splitDot s ≠ [] := by
  intro h
  exact splitChars_ne_nil '.' s.data (List.map_eq_nil_iff.mp h)

/-- C1: one entry of the defaults-application pass writes the default at
its dotted path exactly when the path is missing (Reference error on
read) or holds Null — afterwards the path reads back as the default,
intermediate mappings having been created — and leaves the document
entirely unchanged when a non-null value is present; the pass itself is
the left-to-right fold of these steps. -/
theorem ucl_c1 (cfg : Fields) (path : String) (v : Value) :
    ((getNestedValue cfg path = .ok .vnull ∨
        (∃ m, getNestedValue cfg path = .error (.refError m))) →
      applyDefaultsStep cfg path v = .ok (setNestedValueByPath cfg path v) ∧
      getNestedValue (setNestedValueByPath cfg path v) path = .ok v) ∧
    (∀ w, getNestedValue cfg path = .ok w → w ≠ .vnull →
      applyDefaultsStep cfg path v = .ok cfg) ∧
    (∀ rest, applyDefaults cfg ((path, v) :: rest) =
      (applyDefaultsStep cfg path v).bind fun cfg2 => applyDefaults cfg2 rest) := by
  refine ⟨?_, ?_, fun rest => rfl⟩
  · intro h
    constructor
    · rcases h with h | ⟨m, h⟩
      · rw [applyDefaultsStep, h]; simp
      · rw [applyDefaultsStep, h]
    · rw [getNestedValue, setNestedValueByPath]
      exact getNested_setParts path (splitDot path) cfg v (splitDot_ne_nil path)
  · intro w hw hnn
    rw [applyDefaultsStep, hw]
    simp [hnn]

/-- C1 witness. -/
theorem ucl_c1_witness :
    applyDefaultsStep exampleDoc "a.b" (.vstr "x")
        = .ok (setNestedValueByPath exampleDoc "a.b" (.vstr "x")) ∧
    getNestedValue (setNestedValueByPath exampleDoc "a.b" (.vstr "x")) "a.b"
        = .ok (.vstr "x") ∧
    applyDefaultsStep exampleDoc "z.w" (.vnum (JNum.ofInt 7))
        = .ok (setNestedValueByPath exampleDoc "z.w" (.vnum (JNum.ofInt 7))) ∧
    applyDefaultsStep exampleDoc "c" (.vstr "y") = .ok exampleDoc :=
  ⟨((ucl_c1 exampleDoc "a.b" (.vstr "x")).1 (Or.inl (by decide))).1,
   ((ucl_c1 exampleDoc "a.b" (.vstr "x")).1 (Or.inl (by decide))).2,
   ((ucl_c1 exampleDoc "z.w" (.vnum (JNum.ofInt 7))).1
      (Or.inr ⟨"Path not found: z.w", by decide⟩)).1,
   (ucl_c1 exampleDoc "c" (.vstr "y")).2.1 (.vnum (JNum.ofInt 1)) (by decide) (by decide)⟩


/-! ## C3: comment stripping and line structure -/

theorem stripBlockF_id : ∀ l : List Char, listHasSubstr l ['/', '*'] = false →
    stripBlockF (l.length + 1) l = l := by
  intro l
  induction l with
  | nil => intro h; rfl
  | cons c rest ih =>
    intro h
    rw [listHasSubstr] at h
    rw [Bool.or_eq_false_iff] at h
    have hguard : ¬ (c = '/' ∧ rest.head? = some '*') := by
      intro ⟨hc, hh⟩
      subst hc
      cases rest with
      | nil => exact Option.noConfusion hh
      | cons r rs =>
        have : r = '*' := Option.some.inj hh
        subst this
        simp [List.isPrefixOf] at h
    rw [stripBlockF.eq_def]
    dsimp only []
    rw [if_neg hguard]
    rw [List.length_cons]
    rw [ih h.2]

theorem stripBlockComments_id (s : String) (h : hasSubstr s "/*" = false) :
    stripBlockComments s = s :=
  congrArg String.mk (stripBlockF_id s.data h)

theorem splitChars_no_sep (c : Char) : ∀ (l : List Char) (p : List Char),
    p ∈ splitChars c l → c ∉ p := by
  intro l
  induction l with
  | nil =>
    intro p hp
    rw [splitChars] at hp
    simp at hp
    subst hp
    simp
  | cons x xs ih =>
    intro p hp
    rw [splitChars.eq_def] at hp
    dsimp only [] at hp
    cases h2 : splitChars c xs with
    | nil => exact absurd h2 (splitChars_ne_nil c xs)
    | cons hd tl =>
      rw [h2] at hp
      dsimp only [] at hp
      by_cases hx : x = c
      · rw [if_pos hx] at hp
        rcases List.mem_cons.mp hp with h3 | h3
        · subst h3; simp
        · exact ih p (h2 ▸ h3)
      · rw [if_neg hx] at hp
        rcases List.mem_cons.mp hp with h3 | h3
        · subst h3
          intro hmem
          rcases List.mem_cons.mp hmem with h4 | h4
          · exact hx h4.symm
          · exact ih hd (h2 ▸ List.mem_cons_self hd tl) h4
        · exact ih p (h2 ▸ List.mem_cons_of_mem hd h3)

theorem splitChars_singleton (c : Char) : ∀ p : List Char, c ∉ p →
    splitChars c p = [p] := by
  intro p
  induction p with
  | nil => intro h; rfl
  | cons a as ih =>
    intro h
    have ha : a ≠ c := fun he => h (he ▸ List.mem_cons_self a as)
    have has : c ∉ as := fun hm => h (List.mem_cons_of_mem a hm)
    rw [splitChars.eq_def]
    dsimp only []
    rw [ih has]
    dsimp only []
    rw [if_neg ha]

theorem splitChars_cons_sep (c : Char) (rest : List Char) : ∀ p : List Char, c ∉ p →
    splitChars c (p ++ c :: rest) = p :: splitChars c rest := by
  intro p
  induction p with
  | nil =>
    intro _
    rw [List.nil_append, splitChars.eq_def]
    dsimp only []
    cases h2 : splitChars c rest with
    | nil => exact absurd h2 (splitChars_ne_nil c rest)
    | cons hd tl => dsimp only []; rw [if_pos rfl]
  | cons a as ih =>
    intro h
    have ha : a ≠ c := fun he => h (he ▸ List.mem_cons_self a as)
    have has : c ∉ as := fun hm => h (List.mem_cons_of_mem a hm)
    rw [List.cons_append, splitChars.eq_def]
    dsimp only []
    rw [ih has]
    dsimp only []
    rw [if_neg ha]

theorem stripLineGo_mem : ∀ (l : List Char) (inStr : Bool) (qc prev : Option Char)
    (x : Char), x ∈ stripLineGo inStr qc prev l → x ∈ l := by
  intro l
  induction l with
  | nil => intro _ _ _ x h; rw [stripLineGo] at h; exact absurd h (List.not_mem_nil x)
  | cons c rest ih =>
    intro inStr qc prev x h
    rw [stripLineGo.eq_def] at h
    dsimp only [] at h
    split_ifs at h with h1 h2 h3
    · rcases List.mem_cons.mp h with h4 | h4
      · exact h4 ▸ List.mem_cons_self c rest
      · exact List.mem_cons_of_mem c (ih _ _ _ x h4)
    · rcases List.mem_cons.mp h with h4 | h4
      · exact h4 ▸ List.mem_cons_self c rest
      · exact List.mem_cons_of_mem c (ih _ _ _ x h4)
    · exact absurd h (List.not_mem_nil x)
    · rcases List.mem_cons.mp h with h4 | h4
      · exact h4 ▸ List.mem_cons_self c rest
      · exact List.mem_cons_of_mem c (ih _ _ _ x h4)

theorem jsSplit_joinWith : ∀ ss : List String, ss ≠ [] →
    (∀ s ∈ ss, '\n' ∉ s.data) → jsSplit '\n' (joinWith "\n" ss) = ss := by
  intro ss
  induction ss with
  | nil => intro h; exact absurd rfl h
  | cons s rest ih =>
    intro _ hmem
    cases rest with
    | nil =>
      show jsSplit '\n' (joinWith "\n" [s]) = [s]
      rw [joinWith, jsSplit]
      rw [splitChars_singleton '\n' s.data (hmem s (List.mem_cons_self s []))]
      rfl
    | cons s2 rest2 =>
      have hd : (s ++ "\n" ++ joinWith "\n" (s2 :: rest2)).data
          = s.data ++ '\n' :: (joinWith "\n" (s2 :: rest2)).data := by
        rw [String.data_append, String.data_append, List.append_assoc]
        rfl
      rw [joinWith, jsSplit, hd]
      rw [splitChars_cons_sep '\n' _ s.data (hmem s (List.mem_cons_self s _))]
      have := ih (by simp) (fun t ht => hmem t (List.mem_cons_of_mem s ht))
      rw [jsSplit] at this
      rw [List.map_cons, this]

theorem countLines_removeComments (s : String) :
    countLines (removeComments s) = countLines (stripBlockComments s) := by
  rw [removeComments, countLines, countLines]
  rw [jsSplit_joinWith]
  · rw [List.length_map]
  · simp [jsSplit, splitChars_ne_nil]
  · intro t ht
    rcases List.mem_map.mp ht with ⟨p, hp, hpt⟩
    rcases List.mem_map.mp (by rw [jsSplit] at hp; exact hp) with ⟨q, hq, hqp⟩
    subst hpt
    intro hmem
    have : '\n' ∈ p.data := stripLineGo_mem p.data false none none '\n' hmem
    rw [← hqp] at this
    exact splitChars_no_sep '\n' (stripBlockComments s).data q hq this

/-- C3, counterexample: a block comment spanning a newline deletes that
newline, so the comment stripper does not preserve the line count:
`"a/*\n*/b"` has 2 lines but strips to `"ab"` with 1 line. -/
theorem ucl_c3_counterexample :
    removeComments "a/*\n*/b" = "ab" ∧
    countLines "a/*\n*/b" = 2 ∧
    countLines (removeComments "a/*\n*/b") = 1 := by decide

/-- C3, amended: the per-line `//` stripping pass always preserves the
line count (the count after `removeComments` equals the count after block
stripping alone), and the full stripper preserves the line count whenever
the input contains no block-comment opener; a block comment spanning
multiple lines collapses its span, removing its newlines. -/
theorem ucl_c3 :
    (∀ s, countLines (removeComments s) = countLines (stripBlockComments s)) ∧
    (∀ s, hasSubstr s "/*" = false → countLines (removeComments s) = countLines s) := by
  refine ⟨countLines_removeComments, ?_⟩
  intro s h
  rw [countLines_removeComments, stripBlockComments_id s h]

/-- C3 witness. -/
theorem ucl_c3_witness :
    hasSubstr "x = 1 // c\n\ny = 2" "/*" = false ∧
    countLines (removeComments "x = 1 // c\n\ny = 2") = countLines "x = 1 // c\n\ny = 2" :=
  ⟨by decide, ucl_c3.2 "x = 1 // c\n\ny = 2" (by decide)⟩


/-! ## C8: the Defaults block must be last -/

theorem parseDefaultsSection_header_error (alt : Bool) (vfuel : Nat) (st : EvalSt) :
    ∀ (pre : List String) (defaults : List (String × Value)) (hline : String)
      (post : List String),
      (∀ l ∈ pre, defaultsLineOk alt vfuel st l) →
      isHeaderLine (jsTrim hline) = true →
      parseDefaultsSection alt vfuel st defaults (pre ++ hline :: post)
        = .error (.synError "Defaults section must be at the end of the file") := by
  intro pre
  induction pre with
  | nil =>
    intro defaults hline post _ hhdr
    have ht : jsTrim hline ≠ "" := by
      intro h0
      rw [h0] at hhdr
      exact absurd hhdr (by decide)
    rw [List.nil_append, parseDefaultsSection.eq_def]
    dsimp only []
    rw [if_neg ht, if_pos hhdr]
  | cons l pre ih =>
    intro defaults hline post hpre hhdr
    have hok := hpre l (List.mem_cons_self l pre)
    have hrest : ∀ t ∈ pre, defaultsLineOk alt vfuel st t :=
      fun t ht => hpre t (List.mem_cons_of_mem l ht)
    rw [List.cons_append, parseDefaultsSection.eq_def]
    dsimp only []
    rcases hok with hblank | ⟨hhd, hkv⟩
    · rw [if_pos hblank]
      exact ih defaults hline post hrest hhdr
    · by_cases hbl : jsTrim l = ""
      · rw [if_pos hbl]
        exact ih defaults hline post hrest hhdr
      · rw [if_neg hbl, if_neg (by simp [hhd])]
        rcases hkv with hnoeq | ⟨kv, v, hsp, hpv⟩
        · rw [if_neg (by simp [hnoeq])]
          exact ih defaults hline post hrest hhdr
        · by_cases hc : containsChar (jsTrim l) '=' = true
          · rw [if_pos hc, hsp]
            obtain ⟨key, vp⟩ := kv
            show Except.bind _ _ = _
            rw [Except.bind]
            dsimp only []
            rw [hpv]
            show Except.bind _ _ = _
            rw [Except.bind]
            exact ih _ hline post hrest hhdr
          · rw [if_neg hc]
            exact ih defaults hline post hrest hhdr

/-- C8: once a `[Defaults]` header has been consumed, any later non-blank
line that is a section header makes the parse raise the
`Defaults section must be at the end of the file` Syntax error, provided
the defaults lines before it process without raising; end to end,
`[Defaults]` followed by another `[Section]` header is that Syntax
error. -/
theorem ucl_c8 :
    (∀ (alt : Bool) (vfuel : Nat) (st : EvalSt) (pre : List String)
       (defaults : List (String × Value)) (hline : String) (post : List String),
      (∀ l ∈ pre, defaultsLineOk alt vfuel st l) →
      isHeaderLine (jsTrim hline) = true →
      parseDefaultsSection alt vfuel st defaults (pre ++ hline :: post)
        = .error (.synError "Defaults section must be at the end of the file")) ∧
    (∀ (env fs : String → Option String) (bp : String),
      parseStringVar false 99 env fs bp "[Defaults]\nx = 1\n[Net]"
        = .error (.synError "Defaults section must be at the end of the file")) :=
  ⟨fun alt vfuel st pre defaults hline post hpre hhdr =>
    parseDefaultsSection_header_error alt vfuel st pre defaults hline post hpre hhdr,
   fun _ _ _ => rfl⟩

/-- C8 witness. -/
theorem ucl_c8_witness :
    parseDefaultsSection false 99 emptySt [] ["x = 1", "[Net]", "y = 2"]
      = .error (.synError "Defaults section must be at the end of the file") :=
  ucl_c8.1 false 99 emptySt ["x = 1"] [] "[Net]" ["y = 2"]
    (by
      intro l hl
      rw [List.mem_singleton] at hl
      subst hl
      exact Or.inr ⟨by decide, Or.inr ⟨("x", "1"), .vnum (JNum.ofInt 1), by decide, by decide⟩⟩)
    (by decide)


/-! ## C10: the two TypeScript implementations -/

/-- C10, counterexample: on `x = "a\\nb" + ""` the two pipelines produce
structurally different Documents (and no error): `parser.ts` unescapes the
quoted expression operand, `ucl-parser.ts` strips the quotes without
unescaping, so the operand resolvers disagree on a quoted-string operand
containing an escape sequence. -/
theorem ucl_c10_counterexample :
    parseStringVar false 99 envEmpty fsEmpty "." "x = \"a\\nb\" + \"\"" =
      .ok (Fields.ofList [("x", .vstr "a\nb")]) ∧
    parseStringVar true 99 envEmpty fsEmpty "." "x = \"a\\nb\" + \"\"" =
      .ok (Fields.ofList [("x", .vstr "a\\nb")]) ∧
    parseStringVar false 99 envEmpty fsEmpty "." "x = \"a\\nb\" + \"\"" ≠
      parseStringVar true 99 envEmpty fsEmpty "." "x = \"a\\nb\" + \"\"" ∧
    resolveOperandF false 99 emptySt "\"a\\nb\"" = .ok (.vstr "a\nb") ∧
    resolveOperandF true 99 emptySt "\"a\\nb\"" = .ok (.vstr "a\\nb") := by
  decide

theorem escGo_id : ∀ l : List Char, '\\' ∉ l → escGo l = l := by
  intro l
  induction l with
  | nil => intro _; rfl
  | cons c rest ih =>
    intro h
    have hc : c ≠ '\\' := fun he => h (he ▸ List.mem_cons_self c rest)
    have hrest : '\\' ∉ rest := fun hm => h (List.mem_cons_of_mem c hm)
    rw [escGo.eq_def]
    dsimp only []
    rw [if_neg hc, ih hrest]

theorem trimChars_sandwich (a b : Char) (m : List Char)
    (ha : isWS a = false) (hb : isWS b = false) :
    trimChars ((a :: m) ++ [b]) = (a :: m) ++ [b] := by
  rw [trimChars]
  rw [List.cons_append]
  rw [List.dropWhile_cons_of_neg (by simp [ha])]
  rw [← List.cons_append]
  rw [List.reverse_append]
  rw [List.reverse_singleton, List.singleton_append]
  rw [List.dropWhile_cons_of_neg (by simp [hb])]
  rw [List.reverse_cons, List.reverse_reverse]

/-- C10, amended: the two implementations' expression-operand resolvers
agree on every quoted-string operand containing no backslash (both strip
the quotes); they differ exactly on escape sequences, where `parser.ts`
unescapes and `ucl-parser.ts` returns the raw text between the quotes. -/
theorem ucl_c10 (fuel : Nat) (st : EvalSt) (cs : List Char)
    (hbs : '\\' ∉ cs) :
    resolveOperandF false (fuel + 1) st ⟨'"' :: cs ++ ['"']⟩ = .ok (.vstr ⟨cs⟩) ∧
    resolveOperandF true (fuel + 1) st ⟨'"' :: cs ++ ['"']⟩ = .ok (.vstr ⟨cs⟩) := by
  have htrim : jsTrim ⟨'"' :: cs ++ ['"']⟩ = ⟨'"' :: cs ++ ['"']⟩ :=
    congrArg String.mk (trimChars_sandwich '"' '"' cs rfl rfl)
  have hne : (⟨'"' :: cs ++ ['"']⟩ : String) ≠ "" := by
    intro h0
    have : '"' :: cs ++ ['"'] = [] := congrArg String.data h0
    exact List.noConfusion this
  have hlast : lastCharIs ⟨'"' :: cs ++ ['"']⟩ '"' = true := by
    rw [lastCharIs.eq_def]
    dsimp only []
    rw [List.getLast?_concat]
    rfl
  have hhead : headCharIs ⟨'"' :: cs ++ ['"']⟩ '"' = true := rfl
  have hquoted : isQuotedComplete ⟨'"' :: cs ++ ['"']⟩ = true := by
    rw [isQuotedComplete]
    exact decide_eq_true (Or.inl ⟨hhead, hlast⟩)
  have hinner : innerText ⟨'"' :: cs ++ ['"']⟩ = ⟨cs⟩ := by
    rw [innerText]
    rw [show ((⟨'"' :: cs ++ ['"']⟩ : String).data.drop 1) = cs ++ ['"'] from by
      rw [List.cons_append]
      rfl]
    rw [List.dropLast_concat]
  constructor
  · rw [resolveOperandF.eq_def]
    dsimp only []
    rw [htrim]
    rw [if_neg hne, if_pos hquoted]
    rw [if_neg Bool.false_ne_true]
    rw [hinner]
    rw [parseStringEscape]
    rw [escGo_id cs hbs]
  · rw [resolveOperandF.eq_def]
    dsimp only []
    rw [htrim]
    rw [if_neg hne, if_pos hquoted]
    rw [if_pos rfl]
    rw [hinner]

/-- C10 witness. -/
theorem ucl_c10_witness :
    resolveOperandF false 99 emptySt "\"ab\"" = .ok (.vstr "ab") ∧
    resolveOperandF true 99 emptySt "\"ab\"" = .ok (.vstr "ab") := by
  have h := ucl_c10 98 emptySt ['a', 'b'] (by decide)
  have e1 : ("\"ab\"" : String) = ⟨'"' :: ['a', 'b'] ++ ['"']⟩ := by decide
  have e2 : (⟨['a', 'b']⟩ : String) = "ab" := by decide
  rw [e1, ← e2]
  exact h

end UCL
